import Mathlib

/-!
# qymux: dual-transport dial/listen orchestration

A shallow embedding of the Go packages `transport`, `utils`, `tls`, `quic`, `tcp` and
`dialer` of the repository.

Conventions of the embedding.

* A Go `error` value is `Err = Option String`: `none` is `nil`.
* A Go pointer or interface value that may be `nil` is an `Option`.
* The libraries the repository calls (quic-go, net, crypto/tls, yamux, the certificate
  generator) are oracles collected in `Env`. Every oracle reads the history of library
  calls made so far, so a library may answer differently on every call.
* A Go function with effects is a `Go α`: `run` maps a `World` to an `Outcome` and the
  world it leaves behind. An outcome is a normal return, a run-time panic, or a call that
  blocks in this world.
* `World.trace` is the list of library calls in program order. `World.calls` is the
  call-count instrumentation of the transport adapters: entering an adapter method appends
  its name. Nothing reads `calls`. `World.spawned` lists the goroutines started with `go`.
* `log.Printf` output is not modelled; it does not influence control flow.
* A `select` takes one of its ready cases; which one is read from `World.picks`.
* The goroutines that work on a `dialer.Listener` form a step system, `System`: the two
  accept loops, the accept loop of the QUIC adapter, and the callers of `Close` and
  `Accept`. One actor moves at a time (`System.step`); a run is a list of actors
  (`System.exec`). A blocked actor cannot move, and a panic ends the program.
-/

set_option autoImplicit false

namespace Qymux

/-- Go `error` interface value: `none` is `nil`, `some msg` is a non-nil error. -/
abbrev Err := Option String

/-- Go `net.Addr` value that is not nil. -/
abbrev Addr := String

/-- The fields of `crypto/tls.Config` this repository sets (certificates are known by a
number), and an identity for the rest. -/
structure TLSConfig where
  ident : Nat
  certificates : List Nat
  insecureSkipVerify : Bool
  nextProtos : List String
deriving DecidableEq, Repr

/-- A live `*quic.Conn` of quic-go. -/
structure QuicConn where
  id : Nat
  localAddr : Addr
  remoteAddr : Addr
deriving DecidableEq, Repr

/-- A live `net.Conn`. -/
structure NetConn where
  id : Nat
  localAddr : Addr
deriving DecidableEq, Repr

/-- A `*tls.Conn`: the result of `tls.Client(conn, cfg)` or `tls.Server(conn, cfg)`. -/
structure TLSConn where
  conn : NetConn
deriving DecidableEq, Repr

/-- A live `*yamux.Session`. -/
structure YamuxSession where
  id : Nat
deriving DecidableEq, Repr

/-- A live `*quic.Listener` of quic-go. -/
structure QuicLn where
  id : Nat
  addr : Addr
deriving DecidableEq, Repr

/-- A live `net.Listener`. -/
structure NetLn where
  id : Nat
  addr : Addr
deriving DecidableEq, Repr

/-- Library calls, as they appear in the trace. -/
inductive Event where
  | quicDialAddr (target : String)
  | quicConnClose (conn : Nat)
  | quicListenAddr (addr : String)
  | quicLnAccept (ln : Nat)
  | quicLnClose (ln : Nat)
  | netDialTimeout (target : String)
  | netListen (addr : String)
  | netLnAccept (ln : Nat)
  | netLnClose (ln : Nat)
  | netConnClose (conn : Nat)
  | tlsHandshake (conn : Nat)
  | tlsConnClose (conn : Nat)
  | yamuxClient (conn : Nat)
  | yamuxServer (conn : Nat)
  | yamuxClose (session : Nat)
  | createCertificate
  | closerClose (closer : Nat)
deriving DecidableEq, Repr

/-- Methods of the transport adapters whose calls are counted. -/
inductive Method where
  | quicDial
  | tcpDial
  | quicListen
  | tcpListen
  | quicAccept
  | tcpAccept
  | quicClose
  | tcpClose
deriving DecidableEq, Repr

/-- Goroutines started with a `go` statement. -/
inductive Task where
  | quicAcceptLoop (ln : Nat)
  | serveQuic
  | serveTCP
deriving DecidableEq, Repr

/-- The libraries. Each oracle gets the trace at the time of the call. An oracle that
returns an `Except` stands for a Go function returning `(value, error)` with exactly one of
the two set; `Option` around a result is a call that may block. `createCertificate` stands
for the key and certificate generation of `cert.GenerateSelfSignedConfig`
(`rsa.GenerateKey`, `rand.Int`, `x509.CreateCertificate`): the certificate, or the first
error. `yamuxClose` stands for `(*yamux.Session).Close` of hashicorp/yamux, the concrete
type of the field `session` of `tcp.Session`; that method returns nil on every path. The
oracle itself is not restricted, and a statement that rests on this says so. -/
structure Env where
  quicDialAddr : List Event → String → Option TLSConfig → Except String QuicConn
  quicConnClose : List Event → Nat → Err
  quicListenAddr : List Event → String → Option TLSConfig → Except String QuicLn
  quicLnAccept : List Event → Nat → Option (Except String QuicConn)
  quicLnClose : List Event → Nat → Err
  netDialTimeout : List Event → String → Except String NetConn
  netListen : List Event → String → Except String NetLn
  netLnAccept : List Event → Nat → Option (Except String NetConn)
  netLnClose : List Event → Nat → Err
  netConnClose : List Event → Nat → Err
  tlsHandshake : List Event → Nat → Option TLSConfig → Err
  tlsConnClose : List Event → Nat → Err
  yamuxClient : List Event → Nat → Except String YamuxSession
  yamuxServer : List Event → Nat → Except String YamuxSession
  yamuxClose : List Event → Nat → Err
  createCertificate : List Event → Except String Nat
  closerClose : List Event → Nat → Err

/-- The state a Go function runs in. `picks` are the upcoming choices of the run-time
among the ready cases of a `select`; an exhausted list chooses the first ready case. -/
structure World where
  trace : List Event
  calls : List Method
  spawned : List Task
  picks : List Nat
deriving DecidableEq, Repr

/-- How a call ends. -/
inductive Outcome (α : Type) where
  | ret (a : α)
  | panic (msg : String)
  | block
deriving DecidableEq, Repr

/-- A Go function with effects. -/
structure Go (α : Type) where
  run : World → Outcome α × World

/-- Return without effect. -/
def Go.pure {α : Type} (a : α) : Go α := { run := fun w => (Outcome.ret a, w) }

/-- Sequencing: a panic or a blocked call ends the function. -/
def Go.bind {α β : Type} (m : Go α) (f : α → Go β) : Go β :=
  { run := fun w =>
      match m.run w with
      | (Outcome.ret a, w') => (f a).run w'
      | (Outcome.panic msg, w') => (Outcome.panic msg, w')
      | (Outcome.block, w') => (Outcome.block, w') }

instance : Monad Go where
  pure := Go.pure
  bind := Go.bind

/-- A nil pointer dereference. -/
def nilDeref {α : Type} : Go α :=
  { run := fun w => (Outcome.panic "invalid memory address or nil pointer dereference", w) }

/-- A call that blocks. -/
def blocked {α : Type} : Go α := { run := fun w => (Outcome.block, w) }

/-- A library call that returns. -/
def libcall {α : Type} (e : Event) (oracle : List Event → α) : Go α :=
  { run := fun w => (Outcome.ret (oracle w.trace), { w with trace := w.trace ++ [e] }) }

/-- A library call that may block. -/
def libcallBlocking {α : Type} (e : Event) (oracle : List Event → Option α) : Go α :=
  { run := fun w =>
      match oracle w.trace with
      | some a => (Outcome.ret a, { w with trace := w.trace ++ [e] })
      | none => (Outcome.block, { w with trace := w.trace ++ [e] }) }

/-- Call-count instrumentation: record the entry to an adapter method. -/
def enter (m : Method) : Go Unit :=
  { run := fun w => (Outcome.ret (), { w with calls := w.calls ++ [m] }) }

/-- The `go` statement. -/
def spawn (t : Task) : Go Unit :=
  { run := fun w => (Outcome.ret (), { w with spawned := w.spawned ++ [t] }) }

/-! ## Channels -/

/-- A Go channel: buffered values, capacity, and whether `close` was called. -/
structure Chan (α : Type) where
  buf : List α
  cap : Nat
  closed : Bool
deriving DecidableEq, Repr

/-- `make(chan T, cap)`. -/
def Chan.make {α : Type} (cap : Nat) : Chan α := { buf := [], cap := cap, closed := false }

/-- A receive can proceed: a value is buffered or the channel is closed. -/
def Chan.recvReady {α : Type} (c : Chan α) : Bool := !c.buf.isEmpty || c.closed

/-- The `v, ok := <-c` of a channel whose receive can proceed: the value and `ok`, and the
channel after the receive. A closed, drained channel yields the zero value and `false`. -/
def Chan.recv {α : Type} (zero : α) (c : Chan α) : (α × Bool) × Chan α :=
  match c.buf with
  | v :: rest => ((v, true), { c with buf := rest })
  | [] => ((zero, false), c)

/-- The statement `close(c)`; `none` is the panic "close of closed channel". -/
def Chan.close {α : Type} (c : Chan α) : Option (Chan α) :=
  if c.closed then none else some { c with closed := true }

/-- What a send `c <- v` does. -/
inductive SendResult (α : Type) where
  | sent (c : Chan α)
  | full
  | closed
deriving DecidableEq, Repr

/-- The statement `c <- v` on a buffered channel: it panics on a closed channel, appends to
a buffer with room, and blocks on a full one. -/
def Chan.send {α : Type} (v : α) (c : Chan α) : SendResult α :=
  if c.closed then SendResult.closed
  else if c.buf.length < c.cap then SendResult.sent { c with buf := c.buf ++ [v] }
  else SendResult.full

/-- A run-time panic with the given message. -/
def goPanic {α : Type} (msg : String) : Go α :=
  { run := fun w => (Outcome.panic msg, w) }

/-- Where a goroutine that runs an accept loop stands: not started, at the loop condition,
in the call of `Accept`, about to send a session or an error, or returned. -/
inductive LoopPc (σ : Type) where
  | idle
  | top
  | inAccept
  | sendSession (s : σ)
  | sendErr (e : Err)
  | done
deriving DecidableEq, Repr

/-- The goroutine is started and has not returned. -/
def LoopPc.running {σ : Type} : LoopPc σ → Bool
  | LoopPc.idle => false
  | LoopPc.done => false
  | _ => true

/-- One step of a goroutine: it cannot move now, it moves to a new state, or it panics. -/
inductive Step (σ : Type) where
  | blocked
  | next (s : σ)
  | panic (msg : String)
deriving DecidableEq, Repr

/-- The choice of `select` among the ready cases `ready`: `none` when no case is ready. -/
def pickCase {κ : Type} (ready : List κ) : Go (Option κ) :=
  { run := fun w =>
      match ready with
      | [] => (Outcome.ret none, w)
      | k :: ks =>
        match w.picks with
        | [] => (Outcome.ret (some k), w)
        | p :: ps =>
          (Outcome.ret ((k :: ks).get? (p % (k :: ks).length)), { w with picks := ps }) }

/-! ## Package transport -/

namespace transport

/-- The Go type `TransportMode`, a string. -/
abbrev TransportMode := String

/-- The Go constant `ModeAuto`. -/
def ModeAuto : TransportMode := "auto"

/-- The Go constant `ModeQUIC`. -/
def ModeQUIC : TransportMode := "quic"

/-- The Go constant `ModeTCP`. -/
def ModeTCP : TransportMode := "tcp"

/-- The Go struct `Config`. `TLSConfig` is the `interface{}` holding a `*tls.Config`. -/
structure Config where
  Mode : TransportMode
  TLSConfig : Option Qymux.TLSConfig
deriving DecidableEq, Repr

end transport

/-! ## Packages cert and tls -/

namespace cert

/-- The Go constant `ALPN`. -/
def ALPN : String := "qymux"

/-- The Go function `cert.GenerateSelfSignedConfig`. -/
def GenerateSelfSignedConfig (env : Env) : Go (Option TLSConfig × Err) := do
  match ← libcall Event.createCertificate env.createCertificate with
  | Except.error err => pure (none, some err)
  | Except.ok certificate =>
    pure (some { ident := 0, certificates := [certificate], insecureSkipVerify := false,
                 nextProtos := [ALPN] }, none)

/-- The Go function `cert.GenerateClientTLSConfig`. -/
def GenerateClientTLSConfig (env : Env) : Go (Option TLSConfig × Err) := do
  match ← GenerateSelfSignedConfig env with
  | (_, some err) => pure (none, some err)
  | (none, none) => nilDeref
  | (some config, none) => pure (some { config with insecureSkipVerify := true }, none)

end cert

namespace tls

/-- The Go function `EnsureClientTLSConfig`. -/
def EnsureClientTLSConfig (env : Env) (config : Option TLSConfig) : Go (Option TLSConfig) :=
  match config with
  | some c => pure (some c)
  | none => do
    let r ← cert.GenerateClientTLSConfig env
    if r.2 ≠ none then
      pure (some { ident := 0, certificates := [], insecureSkipVerify := true,
                   nextProtos := [cert.ALPN] })
    else
      pure r.1

/-- The Go function `EnsureServerTLSConfig`. -/
def EnsureServerTLSConfig (env : Env) (config : Option TLSConfig) :
    Go (Option TLSConfig × Err) :=
  match config with
  | some c => pure (some c, none)
  | none => cert.GenerateSelfSignedConfig env

end tls

/-! ## Sessions of the two adapters -/

namespace quic

/-- The Go struct `quic.Session`. -/
structure Session where
  conn : Option QuicConn
  localAddr : Option Addr
  remoteAddr : Option Addr
deriving DecidableEq, Repr

/-- The Go function `quic.NewSession`. -/
def NewSession (conn : Option QuicConn) (localAddr remoteAddr : Option Addr) : Session :=
  { conn := conn, localAddr := localAddr, remoteAddr := remoteAddr }

end quic

namespace tcp

/-- The Go struct `tcp.Session`. -/
structure Session where
  session : Option YamuxSession
  tlsConn : Option TLSConn
  localAddr : Option Addr
deriving DecidableEq, Repr

/-- The Go function `tcp.NewSession`. -/
def NewSession (session : Option YamuxSession) (tlsConn : Option TLSConn)
    (localAddr : Option Addr) : Session :=
  { session := session, tlsConn := tlsConn, localAddr := localAddr }

end tcp

namespace transport

/-- A non-nil value of the Go interface `MuxSession`: the dynamic type and the pointer, which
may itself be nil. The nil interface is `none : Option MuxSession`. -/
inductive MuxSession where
  | quic (p : Option Qymux.quic.Session)
  | tcp (p : Option Qymux.tcp.Session)
deriving DecidableEq, Repr

end transport

open transport (MuxSession TransportMode ModeAuto ModeQUIC ModeTCP)

/-- The Go result `(transport.MuxSession, error)`. -/
abbrev SessionResult := Option MuxSession × Err

/-! ## Package quic -/

namespace quic

/-- The Go method `Session.Protocol`. -/
def Session.Protocol (_s : Option Session) : String := "QUIC"

/-- The Go struct `quic.Dialer`; the `*quic.Config` field is the empty configuration. -/
structure Dialer where
  tlsConfig : Option TLSConfig
deriving DecidableEq, Repr

/-- The Go function `quic.NewDialer`. -/
def NewDialer (env : Env) (tlsConfig : Option TLSConfig) : Go Dialer := do
  let tlsConfig ← tls.EnsureClientTLSConfig env tlsConfig
  pure { tlsConfig := tlsConfig }

/-- The Go method `quic.Dialer.Dial`. -/
def Dialer.Dial (env : Env) (d : Dialer) (target : String) : Go SessionResult := do
  enter Method.quicDial
  match ← libcall (Event.quicDialAddr target)
      (fun tr => env.quicDialAddr tr target d.tlsConfig) with
  | Except.error err => pure (none, some err)
  | Except.ok quicConn =>
    pure (some (MuxSession.quic (some
      (NewSession (some quicConn) (some quicConn.localAddr) (some quicConn.remoteAddr)))), none)

/-- The Go struct `quic.Listener`. -/
structure Listener where
  ln : QuicLn
  localAddr : Addr
  acceptChan : Chan (Option Session)
  errChan : Chan Err
deriving DecidableEq, Repr

/-- The Go function `quic.NewListener`. -/
def NewListener (ln : QuicLn) (localAddr : Addr) : Go Listener := do
  let l : Listener :=
    { ln := ln, localAddr := localAddr, acceptChan := Chan.make 10, errChan := Chan.make 1 }
  spawn (Task.quicAcceptLoop ln.id)
  pure l

/-- The cases of the `select` in `quic.Listener.Accept`. -/
inductive AcceptCase where
  | acceptChan
  | errChan
deriving DecidableEq, Repr

/-- The cases of `quic.Listener.Accept` that can proceed, in source order. -/
def Listener.readyCases (l : Listener) : List AcceptCase :=
  (if l.acceptChan.recvReady then [AcceptCase.acceptChan] else []) ++
  (if l.errChan.recvReady then [AcceptCase.errChan] else [])

/-- The Go method `quic.Listener.Accept`, with the listener after the receive. -/
def Listener.Accept (l : Listener) : Go (SessionResult × Listener) := do
  enter Method.quicAccept
  match ← pickCase l.readyCases with
  | none => blocked
  | some AcceptCase.acceptChan =>
    let r := l.acceptChan.recv none
    pure ((some (MuxSession.quic r.1.1), none), { l with acceptChan := r.2 })
  | some AcceptCase.errChan =>
    let r := l.errChan.recv none
    pure ((none, r.1.1), { l with errChan := r.2 })

/-- The Go method `quic.Listener.Close`. -/
def Listener.Close (env : Env) (l : Listener) : Go Err := do
  enter Method.quicClose
  libcall (Event.quicLnClose l.ln.id) (fun tr => env.quicLnClose tr l.ln.id)

/-- The Go method `quic.Listener.Addr`. -/
def Listener.Addr (l : Listener) : Addr := l.localAddr

/-- One step of the goroutine `acceptLoop` of a `quic.Listener`: the call of the quic-go
listener's `Accept`, or the send that follows it. The loop has no condition. -/
def Listener.acceptLoopStep (env : Env) (pc : LoopPc (Option Session)) (l : Listener)
    (w : World) : Step (LoopPc (Option Session) × Listener × World) :=
  match pc with
  | LoopPc.idle => Step.blocked
  | LoopPc.done => Step.blocked
  | LoopPc.top => Step.next (LoopPc.inAccept, l, w)
  | LoopPc.inAccept =>
    match env.quicLnAccept w.trace l.ln.id with
    | none => Step.blocked
    | some (Except.error err) =>
      Step.next (LoopPc.sendErr (some err), l,
        { w with trace := w.trace ++ [Event.quicLnAccept l.ln.id] })
    | some (Except.ok conn) =>
      Step.next (LoopPc.sendSession
          (some (NewSession (some conn) (some l.localAddr) (some conn.remoteAddr))), l,
        { w with trace := w.trace ++ [Event.quicLnAccept l.ln.id] })
  | LoopPc.sendErr err =>
    match l.errChan.send err with
    | SendResult.sent c => Step.next (LoopPc.done, { l with errChan := c }, w)
    | SendResult.full => Step.blocked
    | SendResult.closed => Step.panic "send on closed channel"
  | LoopPc.sendSession session =>
    match l.acceptChan.send session with
    | SendResult.sent c => Step.next (LoopPc.inAccept, { l with acceptChan := c }, w)
    | SendResult.full => Step.blocked
    | SendResult.closed => Step.panic "send on closed channel"

/-- The Go function `quic.Listen`. -/
def Listen (env : Env) (addr : String) (tlsConfig : Option TLSConfig) :
    Go (Option Listener × Err) := do
  enter Method.quicListen
  match ← tls.EnsureServerTLSConfig env tlsConfig with
  | (_, some err) => pure (none, some err)
  | (tlsConfig, none) =>
    match ← libcall (Event.quicListenAddr addr)
        (fun tr => env.quicListenAddr tr addr tlsConfig) with
    | Except.error err => pure (none, some err)
    | Except.ok ln => do
      let l ← NewListener ln ln.addr
      pure (some l, none)

end quic

/-! ## Package tcp -/

namespace tcp

/-- The Go method `tcp.Session.Protocol`. -/
def Session.Protocol (_s : Option Session) : String := "TCP"

/-- The Go method `(*tls.Conn).Close`, a library call. -/
def tlsConnClose (env : Env) (c : TLSConn) : Go Err :=
  libcall (Event.tlsConnClose c.conn.id) (fun tr => env.tlsConnClose tr c.conn.id)

/-- The Go method `tcp.Session.Close`. A nil receiver or a nil `session` field is
dereferenced. -/
def Session.Close (env : Env) (s : Option Session) : Go Err :=
  match s with
  | none => nilDeref
  | some s =>
    match s.session with
    | none => nilDeref
    | some y => do
      let err ← libcall (Event.yamuxClose y.id) (fun tr => env.yamuxClose tr y.id)
      if err ≠ none then
        pure err
      else
        match s.tlsConn with
        | some c => tlsConnClose env c
        | none => pure none

/-- The Go struct `tcp.Dialer`; `timeout` is in seconds. -/
structure Dialer where
  tlsConfig : Option TLSConfig
  timeout : Nat
deriving DecidableEq, Repr

/-- The Go function `tcp.NewDialer`. -/
def NewDialer (env : Env) (tlsConfig : Option TLSConfig) : Go Dialer := do
  let tlsConfig ← tls.EnsureClientTLSConfig env tlsConfig
  pure { tlsConfig := tlsConfig, timeout := 10 }

/-- The Go method `tcp.Dialer.Dial`. -/
def Dialer.Dial (env : Env) (d : Dialer) (target : String) : Go SessionResult := do
  enter Method.tcpDial
  match ← libcall (Event.netDialTimeout target) (fun tr => env.netDialTimeout tr target) with
  | Except.error err => pure (none, some err)
  | Except.ok conn =>
    let tlsConn : TLSConn := { conn := conn }
    match ← libcall (Event.tlsHandshake conn.id)
        (fun tr => env.tlsHandshake tr conn.id d.tlsConfig) with
    | some err => do
      let _ ← libcall (Event.netConnClose conn.id) (fun tr => env.netConnClose tr conn.id)
      pure (none, some err)
    | none =>
      match ← libcall (Event.yamuxClient conn.id) (fun tr => env.yamuxClient tr conn.id) with
      | Except.error err => do
        let _ ← tlsConnClose env tlsConn
        pure (none, some err)
      | Except.ok session =>
        pure (some (MuxSession.tcp (some
          (NewSession (some session) (some tlsConn) (some conn.localAddr)))), none)

/-- The Go struct `tcp.Listener`. -/
structure Listener where
  ln : NetLn
  tlsConfig : Option TLSConfig
  localAddr : Addr
deriving DecidableEq, Repr

/-- The Go function `tcp.NewListener`. -/
def NewListener (ln : NetLn) (tlsConfig : Option TLSConfig) (localAddr : Addr) : Listener :=
  { ln := ln, tlsConfig := tlsConfig, localAddr := localAddr }

/-- The Go method `tcp.Listener.Accept`. -/
def Listener.Accept (env : Env) (l : Listener) : Go SessionResult := do
  enter Method.tcpAccept
  match ← libcallBlocking (Event.netLnAccept l.ln.id)
      (fun tr => env.netLnAccept tr l.ln.id) with
  | Except.error err => pure (none, some err)
  | Except.ok conn =>
    let tlsConn : TLSConn := { conn := conn }
    match ← libcall (Event.tlsHandshake conn.id)
        (fun tr => env.tlsHandshake tr conn.id l.tlsConfig) with
    | some err => do
      let _ ← libcall (Event.netConnClose conn.id) (fun tr => env.netConnClose tr conn.id)
      pure (none, some err)
    | none =>
      match ← libcall (Event.yamuxServer conn.id) (fun tr => env.yamuxServer tr conn.id) with
      | Except.error err => do
        let _ ← tlsConnClose env tlsConn
        pure (none, some err)
      | Except.ok session =>
        pure (some (MuxSession.tcp (some
          (NewSession (some session) (some tlsConn) (some l.localAddr)))), none)

/-- The Go method `tcp.Listener.Close`. -/
def Listener.Close (env : Env) (l : Listener) : Go Err := do
  enter Method.tcpClose
  libcall (Event.netLnClose l.ln.id) (fun tr => env.netLnClose tr l.ln.id)

/-- The Go method `tcp.Listener.Addr`. -/
def Listener.Addr (l : Listener) : Addr := l.localAddr

/-- The Go function `tcp.Listen`. -/
def Listen (env : Env) (addr : String) (tlsConfig : Option TLSConfig) :
    Go (Option Listener × Err) := do
  enter Method.tcpListen
  match ← tls.EnsureServerTLSConfig env tlsConfig with
  | (_, some err) => pure (none, some err)
  | (tlsConfig, none) =>
    match ← libcall (Event.netListen addr) (fun tr => env.netListen tr addr) with
    | Except.error err => pure (none, some err)
    | Except.ok ln => pure (some (NewListener ln tlsConfig ln.addr), none)

end tcp

/-! ## The interface `MuxSession` -/

namespace transport

/-- The dynamic call `s.Protocol()` on a non-nil `MuxSession`. -/
def MuxSession.Protocol : MuxSession → String
  | MuxSession.quic p => Qymux.quic.Session.Protocol p
  | MuxSession.tcp p => Qymux.tcp.Session.Protocol p

end transport

/-! ## Package utils -/

namespace utils

/-- The loop of `CloseAll`, with the local `firstErr`. -/
def CloseAll.loop {C : Type} (close : C → Go Err) : List (Option C) → Err → Go Err
  | [], firstErr => pure firstErr
  | none :: cs, firstErr => CloseAll.loop close cs firstErr
  | some c :: cs, firstErr => do
    let err ← close c
    if err ≠ none ∧ firstErr = none then
      CloseAll.loop close cs err
    else
      CloseAll.loop close cs firstErr

/-- The Go function `utils.CloseAll`. An `io.Closer` is `none` for the nil interface and
`some c` otherwise; `close c` is the dynamic call `c.Close()`. -/
def CloseAll {C : Type} (close : C → Go Err) (closers : List (Option C)) : Go Err :=
  CloseAll.loop close closers none

/-- An `io.Closer` of the caller, known by a number; its `Close` is a library call. -/
structure Closer where
  id : Nat
deriving DecidableEq, Repr

/-- The method `Close` of a `Closer`. -/
def Closer.Close (env : Env) (c : Closer) : Go Err :=
  libcall (Event.closerClose c.id) (fun tr => env.closerClose tr c.id)

end utils

/-! ## Package dialer -/

namespace dialer

/-- The Go struct `dialer.Dialer`, as `NewDialer` builds it: no field is nil. -/
structure Dialer where
  config : transport.Config
  quicDialer : quic.Dialer
  tcpDialer : tcp.Dialer
deriving DecidableEq, Repr

/-- The Go function `extractTLSConfig`: the `*tls.Config` held by the `interface{}`. -/
def extractTLSConfig (config : Option TLSConfig) : Option TLSConfig :=
  match config with
  | none => none
  | some c => some c

/-- The configuration `NewDialer` and `NewListener` put in place of a nil one. -/
def defaultConfig : transport.Config := { Mode := ModeAuto, TLSConfig := none }

/-- The Go function `dialer.NewDialer`. -/
def NewDialer (env : Env) (config : Option transport.Config) : Go Dialer := do
  let config := match config with
    | none => defaultConfig
    | some c => c
  let tlsConfig := extractTLSConfig config.TLSConfig
  let quicDialer ← quic.NewDialer env tlsConfig
  let tcpDialer ← tcp.NewDialer env tlsConfig
  pure { config := config, quicDialer := quicDialer, tcpDialer := tcpDialer }

/-- The Go method `Dialer.dialQUIC`. -/
def Dialer.dialQUIC (env : Env) (d : Dialer) (target : String) : Go SessionResult :=
  d.quicDialer.Dial env target

/-- The Go method `Dialer.dialTCP`. -/
def Dialer.dialTCP (env : Env) (d : Dialer) (target : String) : Go SessionResult :=
  d.tcpDialer.Dial env target

/-- The Go method `Dialer.dialAuto`. -/
def Dialer.dialAuto (env : Env) (d : Dialer) (target : String) : Go SessionResult := do
  let r ← d.quicDialer.Dial env target
  if r.2 = none then
    pure (r.1, none)
  else
    d.tcpDialer.Dial env target

/-- The Go method `Dialer.Dial`. -/
def Dialer.Dial (env : Env) (d : Dialer) (target : String) : Go SessionResult :=
  if d.config.Mode = ModeQUIC then d.dialQUIC env target
  else if d.config.Mode = ModeTCP then d.dialTCP env target
  else if d.config.Mode = ModeAuto then d.dialAuto env target
  else d.dialAuto env target

/-- The Go struct `dialer.Listener`; `wg` is the counter of the `sync.WaitGroup`. -/
structure Listener where
  config : transport.Config
  quicListener : Option quic.Listener
  tcpListener : Option tcp.Listener
  quicSession : Chan (Option MuxSession)
  quicErr : Chan Err
  tcpSession : Chan (Option MuxSession)
  tcpErr : Chan Err
  closed : Bool
  wg : Nat
deriving DecidableEq, Repr

/-- The end of `NewListener`: start an accept loop for each bound listener and return. -/
def NewListener.start (l : Listener) : Go (Option Listener × Err) := do
  let l ← (if l.quicListener ≠ none then do
      let l : Listener := { l with wg := l.wg + 1 }
      spawn Task.serveQuic
      pure l
    else pure l)
  let l ← (if l.tcpListener ≠ none then do
      let l : Listener := { l with wg := l.wg + 1 }
      spawn Task.serveTCP
      pure l
    else pure l)
  pure (some l, none)

/-- The Go function `dialer.NewListener`. -/
def NewListener (env : Env) (addr : String) (config : Option transport.Config) :
    Go (Option Listener × Err) := do
  let config := match config with
    | none => defaultConfig
    | some c => c
  let l : Listener :=
    { config := config, quicListener := none, tcpListener := none,
      quicSession := Chan.make 10, quicErr := Chan.make 1,
      tcpSession := Chan.make 10, tcpErr := Chan.make 1,
      closed := false, wg := 0 }
  let tlsConfig := extractTLSConfig config.TLSConfig
  if config.Mode = ModeQUIC then do
    match ← quic.Listen env addr tlsConfig with
    | (_, some err) => pure (none, some err)
    | (ln, none) => NewListener.start { l with quicListener := ln }
  else if config.Mode = ModeTCP then do
    match ← tcp.Listen env addr tlsConfig with
    | (_, some err) => pure (none, some err)
    | (ln, none) => NewListener.start { l with tcpListener := ln }
  else do
    let q ← quic.Listen env addr tlsConfig
    let l : Listener := if q.2 ≠ none then l else { l with quicListener := q.1 }
    match ← tcp.Listen env addr tlsConfig with
    | (_, some err) => do
      match l.quicListener with
      | some ql => do
        let _ ← ql.Close env
        pure (none, some err)
      | none => pure (none, some err)
    | (tcpLn, none) => NewListener.start { l with tcpListener := tcpLn }

/-- The call `l.tcpListener.Accept()`; a nil listener is dereferenced. -/
def Listener.tcpAccept (env : Env) (l : Listener) : Go (SessionResult × Listener) :=
  match l.tcpListener with
  | none => nilDeref
  | some t => do
    let r ← t.Accept env
    pure (r, l)

/-- The call `l.quicListener.Accept()`; a nil listener is dereferenced. -/
def Listener.quicAccept (l : Listener) : Go (SessionResult × Listener) :=
  match l.quicListener with
  | none => nilDeref
  | some q => do
    let r ← q.Accept
    pure (r.1, { l with quicListener := some r.2 })

/-- The cases of the `select` in `acceptDualMode`. -/
inductive DualCase where
  | quicSession
  | tcpSession
  | quicErr
  | tcpErr
deriving DecidableEq, Repr

/-- The cases of `acceptDualMode` that can proceed, in source order. -/
def Listener.readyCases (l : Listener) : List DualCase :=
  (if l.quicSession.recvReady then [DualCase.quicSession] else []) ++
  (if l.tcpSession.recvReady then [DualCase.tcpSession] else []) ++
  (if l.quicErr.recvReady then [DualCase.quicErr] else []) ++
  (if l.tcpErr.recvReady then [DualCase.tcpErr] else [])

/-- The Go method `Listener.acceptDualMode`. `fuel` bounds the iterations of the `for`
loop; the result is `none` when the loop has not returned within `fuel` iterations. The
listener after the call is returned with the result. -/
def Listener.acceptDualMode (env : Env) :
    Nat → Listener → Go (Option (SessionResult × Listener))
  | 0, _ => pure none
  | fuel + 1, l => do
    match ← pickCase l.readyCases with
    | none => blocked
    | some DualCase.quicSession =>
      let r := l.quicSession.recv none
      let l : Listener := { l with quicSession := r.2 }
      if r.1.2 = false then do
        let a ← l.tcpAccept env
        pure (some a)
      else
        pure (some ((r.1.1, none), l))
    | some DualCase.tcpSession =>
      let r := l.tcpSession.recv none
      let l : Listener := { l with tcpSession := r.2 }
      if r.1.2 = false then do
        let a ← l.quicAccept
        pure (some a)
      else
        pure (some ((r.1.1, none), l))
    | some DualCase.quicErr =>
      let r := l.quicErr.recv none
      let l : Listener := { l with quicErr := r.2 }
      if r.1.2 = true ∧ r.1.1 ≠ none then do
        let a ← l.tcpAccept env
        pure (some a)
      else
        Listener.acceptDualMode env fuel l
    | some DualCase.tcpErr =>
      let r := l.tcpErr.recv none
      let l : Listener := { l with tcpErr := r.2 }
      if r.1.2 = true ∧ r.1.1 ≠ none then do
        let a ← l.quicAccept
        pure (some a)
      else
        Listener.acceptDualMode env fuel l

/-- The Go method `Listener.Accept`, with the fuel of `acceptDualMode`. -/
def Listener.Accept (env : Env) (fuel : Nat) (l : Listener) :
    Go (Option (SessionResult × Listener)) :=
  if l.quicListener ≠ none ∧ l.tcpListener ≠ none then
    l.acceptDualMode env fuel
  else if l.quicListener ≠ none then do
    let a ← l.quicAccept
    pure (some a)
  else do
    let a ← l.tcpAccept env
    pure (some a)

/-- The Go method `Listener.Addr`; with no listener bound, the nil `tcpListener` is
dereferenced. -/
def Listener.Addr (l : Listener) : Go Addr :=
  match l.quicListener with
  | some q => pure q.Addr
  | none =>
    match l.tcpListener with
    | some t => pure t.Addr
    | none => nilDeref

/-- An `io.Closer` made from a listener field of `dialer.Listener`. The conversion of a
pointer to an interface type gives a non-nil interface value, also when the pointer is
nil: the value holds the pointer's type. -/
inductive ListenerCloser where
  | quic (p : Option quic.Listener)
  | tcp (p : Option tcp.Listener)
deriving DecidableEq, Repr

/-- The dynamic call `c.Close()` on a `ListenerCloser`: the method of the pointer's type,
which dereferences its receiver. -/
def ListenerCloser.Close (env : Env) : ListenerCloser → Go Err
  | ListenerCloser.quic (some q) => q.Close env
  | ListenerCloser.quic none => do
    enter Method.quicClose
    nilDeref
  | ListenerCloser.tcp (some t) => t.Close env
  | ListenerCloser.tcp none => do
    enter Method.tcpClose
    nilDeref

/-- The call `utils.CloseAll(l.quicListener, l.tcpListener)` of `Listener.Close`. -/
def Listener.closeListeners (env : Env) (l : Listener) : Go Err :=
  utils.CloseAll (ListenerCloser.Close env)
    [some (ListenerCloser.quic l.quicListener), some (ListenerCloser.tcp l.tcpListener)]

/-- The four statements `close(l.quicSession)`, `close(l.quicErr)`, `close(l.tcpSession)`,
`close(l.tcpErr)`, numbered from 0; `none` is the panic "close of closed channel". -/
def Listener.closeBuffer (l : Listener) : Nat → Option Listener
  | 0 => l.quicSession.close.map (fun c => { l with quicSession := c })
  | 1 => l.quicErr.close.map (fun c => { l with quicErr := c })
  | 2 => l.tcpSession.close.map (fun c => { l with tcpSession := c })
  | _ => l.tcpErr.close.map (fun c => { l with tcpErr := c })

/-- The statements `close(...)` of `Listener.Close` from number `k` on. -/
def Listener.closeBuffersFrom (l : Listener) : Nat → Nat → Go Listener
  | 0, _ => pure l
  | n + 1, k =>
    match l.closeBuffer k with
    | none => goPanic "close of closed channel"
    | some l' => Listener.closeBuffersFrom l' n (k + 1)

/-- The Go method `Listener.Close` run with no other goroutine moving: `l.wg.Wait()`
returns when the counter is zero and blocks otherwise. The listener after the call is
returned with the error. -/
def Listener.Close (env : Env) (l : Listener) : Go (Err × Listener) := do
  let l : Listener := { l with closed := true }
  let err ← l.closeListeners env
  if l.wg ≠ 0 then
    blocked
  else do
    let l ← l.closeBuffersFrom 4 0
    pure (err, l)

/-- One step of the goroutine `serveQuic`. -/
def Listener.serveQuicStep (pc : LoopPc (Option MuxSession)) (l : Listener) (w : World) :
    Step (LoopPc (Option MuxSession) × Listener × World) :=
  match pc with
  | LoopPc.idle => Step.blocked
  | LoopPc.done => Step.blocked
  | LoopPc.top =>
    if l.closed then Step.next (LoopPc.done, { l with wg := l.wg - 1 }, w)
    else Step.next (LoopPc.inAccept, l, w)
  | LoopPc.inAccept =>
    match l.quicAccept.run w with
    | (Outcome.ret (r, l'), w') =>
      if r.2 ≠ none then Step.next (LoopPc.sendErr r.2, l', w')
      else Step.next (LoopPc.sendSession r.1, l', w')
    | (Outcome.block, _) => Step.blocked
    | (Outcome.panic msg, _) => Step.panic msg
  | LoopPc.sendErr err =>
    match l.quicErr.send err with
    | SendResult.sent c => Step.next (LoopPc.done, { l with quicErr := c, wg := l.wg - 1 }, w)
    | SendResult.full => Step.blocked
    | SendResult.closed => Step.panic "send on closed channel"
  | LoopPc.sendSession session =>
    match l.quicSession.send session with
    | SendResult.sent c => Step.next (LoopPc.top, { l with quicSession := c }, w)
    | SendResult.full => Step.blocked
    | SendResult.closed => Step.panic "send on closed channel"

/-- One step of the goroutine `serveTCP`. -/
def Listener.serveTCPStep (env : Env) (pc : LoopPc (Option MuxSession)) (l : Listener)
    (w : World) : Step (LoopPc (Option MuxSession) × Listener × World) :=
  match pc with
  | LoopPc.idle => Step.blocked
  | LoopPc.done => Step.blocked
  | LoopPc.top =>
    if l.closed then Step.next (LoopPc.done, { l with wg := l.wg - 1 }, w)
    else Step.next (LoopPc.inAccept, l, w)
  | LoopPc.inAccept =>
    match (l.tcpAccept env).run w with
    | (Outcome.ret (r, l'), w') =>
      if r.2 ≠ none then Step.next (LoopPc.sendErr r.2, l', w')
      else Step.next (LoopPc.sendSession r.1, l', w')
    | (Outcome.block, _) => Step.blocked
    | (Outcome.panic msg, _) => Step.panic msg
  | LoopPc.sendErr err =>
    match l.tcpErr.send err with
    | SendResult.sent c => Step.next (LoopPc.done, { l with tcpErr := c, wg := l.wg - 1 }, w)
    | SendResult.full => Step.blocked
    | SendResult.closed => Step.panic "send on closed channel"
  | LoopPc.sendSession session =>
    match l.tcpSession.send session with
    | SendResult.sent c => Step.next (LoopPc.top, { l with tcpSession := c }, w)
    | SendResult.full => Step.blocked
    | SendResult.closed => Step.panic "send on closed channel"

end dialer

/-! ## The listener with its goroutines -/

/-- Where a call of `Listener.Close` stands: no call is running, `l.closed` has been set
and `CloseAll` comes next, the call is at `l.wg.Wait()`, or it is about to close buffer
number `k`. `err` is the result of `CloseAll`. -/
inductive ClosePc where
  | idle
  | closeAll
  | wait (err : Err)
  | closeChan (k : Nat) (err : Err)
deriving DecidableEq, Repr

/-- A `dialer.Listener` together with the goroutines that work on it: the two accept loops
of the listener, the accept loop of its QUIC adapter, and the callers of `Close` and
`Accept`. `closeResults` and `accepted` are what the calls of `Close` and `Accept` have
returned so far; `crashed` is the message of a panic, which ends the program. -/
structure System where
  l : dialer.Listener
  w : World
  serveQuic : LoopPc (Option MuxSession)
  serveTCP : LoopPc (Option MuxSession)
  acceptLoop : LoopPc (Option quic.Session)
  closePc : ClosePc
  closeResults : List Err
  accepted : List SessionResult
  crashed : Option String
deriving DecidableEq, Repr

/-- Who moves next. -/
inductive Actor where
  | serveQuic
  | serveTCP
  | acceptLoop
  | close
  | accept
deriving DecidableEq, Repr

/-- The system right after `NewListener` has returned `l`: an accept loop is started for
each listener that is bound, and the QUIC adapter runs its own loop. -/
def System.start (l : dialer.Listener) (w : World) : System :=
  { l := l, w := w,
    serveQuic := if l.quicListener ≠ none then LoopPc.top else LoopPc.idle,
    serveTCP := if l.tcpListener ≠ none then LoopPc.top else LoopPc.idle,
    acceptLoop := if l.quicListener ≠ none then LoopPc.inAccept else LoopPc.idle,
    closePc := ClosePc.idle, closeResults := [], accepted := [], crashed := none }

/-- The move of one actor, when it can move. -/
def System.move (env : Env) (fuel : Nat) (s : System) : Actor → Step System
  | Actor.serveQuic =>
    match s.l.serveQuicStep s.serveQuic s.w with
    | Step.next (pc, l, w) => Step.next { s with serveQuic := pc, l := l, w := w }
    | Step.blocked => Step.blocked
    | Step.panic msg => Step.panic msg
  | Actor.serveTCP =>
    match s.l.serveTCPStep env s.serveTCP s.w with
    | Step.next (pc, l, w) => Step.next { s with serveTCP := pc, l := l, w := w }
    | Step.blocked => Step.blocked
    | Step.panic msg => Step.panic msg
  | Actor.acceptLoop =>
    match s.l.quicListener with
    | none => Step.blocked
    | some q =>
      match q.acceptLoopStep env s.acceptLoop s.w with
      | Step.next (pc, q', w) =>
        Step.next { s with acceptLoop := pc, l := { s.l with quicListener := some q' }, w := w }
      | Step.blocked => Step.blocked
      | Step.panic msg => Step.panic msg
  | Actor.close =>
    match s.closePc with
    | ClosePc.idle =>
      Step.next { s with l := { s.l with closed := true }, closePc := ClosePc.closeAll }
    | ClosePc.closeAll =>
      match (s.l.closeListeners env).run s.w with
      | (Outcome.ret err, w) => Step.next { s with w := w, closePc := ClosePc.wait err }
      | (Outcome.block, _) => Step.blocked
      | (Outcome.panic msg, _) => Step.panic msg
    | ClosePc.wait err =>
      if s.l.wg = 0 then Step.next { s with closePc := ClosePc.closeChan 0 err }
      else Step.blocked
    | ClosePc.closeChan k err =>
      match s.l.closeBuffer k with
      | none => Step.panic "close of closed channel"
      | some l =>
        if k < 3 then Step.next { s with l := l, closePc := ClosePc.closeChan (k + 1) err }
        else Step.next { s with l := l, closePc := ClosePc.idle,
                                closeResults := s.closeResults ++ [err] }
  | Actor.accept =>
    match (s.l.Accept env fuel).run s.w with
    | (Outcome.ret (some (r, l)), w) =>
      Step.next { s with l := l, w := w, accepted := s.accepted ++ [r] }
    | (Outcome.ret none, _) => Step.blocked
    | (Outcome.block, _) => Step.blocked
    | (Outcome.panic msg, _) => Step.panic msg

/-- One step of the system: the chosen actor moves, or panics and ends the program.
`none` when the program has ended or the actor cannot move. -/
def System.step (env : Env) (fuel : Nat) (a : Actor) (s : System) : Option System :=
  if s.crashed ≠ none then none
  else
    match s.move env fuel a with
    | Step.next s' => some s'
    | Step.blocked => none
    | Step.panic msg => some { s with crashed := some msg }

/-- The system after the actors of a schedule have moved in turn; `none` when one of them
could not move. -/
def System.exec (env : Env) (fuel : Nat) : List Actor → System → Option System
  | [], s => some s
  | a :: rest, s =>
    match s.step env fuel a with
    | some s' => System.exec env fuel rest s'
    | none => none

/-! ## Auxiliary definitions of the statements -/

/-- The outcome with its returned value mapped. -/
def Outcome.map {α β : Type} (f : α → β) : Outcome α → Outcome β
  | Outcome.ret a => Outcome.ret (f a)
  | Outcome.panic msg => Outcome.panic msg
  | Outcome.block => Outcome.block

/-- What each `Close` returns when the non-nil closers of `closers` are closed one after
another, in argument order, starting from the trace `tr`. -/
def closeErrors (env : Env) : List Event → List (Option utils.Closer) → List Err
  | _, [] => []
  | tr, none :: cs => closeErrors env tr cs
  | tr, some c :: cs =>
    env.closerClose tr c.id :: closeErrors env (tr ++ [Event.closerClose c.id]) cs

/-- The first non-nil error of a list of errors, `nil` when there is none. -/
def firstError : List Err → Err
  | [] => none
  | none :: es => firstError es
  | some e :: _ => some e

/-- The listener `l'` is `l` after some values have been received from its buffers: nothing
else has changed, and what is left on a buffer is an end of what was on it. -/
structure dialer.Listener.DrainedTo (l l' : dialer.Listener) : Prop where
  wg : l'.wg = l.wg
  closed : l'.closed = l.closed
  tcpListener : l'.tcpListener = l.tcpListener
  quicSession_closed : l'.quicSession.closed = l.quicSession.closed
  quicSession_buf : l'.quicSession.buf <:+ l.quicSession.buf
  quicErr_closed : l'.quicErr.closed = l.quicErr.closed
  quicErr_buf : l'.quicErr.buf <:+ l.quicErr.buf
  tcpSession_closed : l'.tcpSession.closed = l.tcpSession.closed
  tcpSession_buf : l'.tcpSession.buf <:+ l.tcpSession.buf
  tcpErr_closed : l'.tcpErr.closed = l.tcpErr.closed
  tcpErr_buf : l'.tcpErr.buf <:+ l.tcpErr.buf

/-- What holds in every state of a run of a listener with its goroutines: the wait group
counts the accept loops that have not returned; a `Close` that is past `l.wg.Wait()` has
found the counter at zero and has closed the buffers before its position; a buffer is
closed only when the counter is zero; once a `Close` has returned, the four buffers are
closed; an error lies on an error buffer only when the loop of that buffer has returned. -/
structure System.Inv (s : System) : Prop where
  wg_count : s.l.wg =
    (if s.serveQuic.running then 1 else 0) + (if s.serveTCP.running then 1 else 0)
  past_wait : ∀ k err, s.closePc = ClosePc.closeChan k err →
    s.l.wg = 0 ∧ (0 < k → s.l.quicSession.closed = true) ∧
    (1 < k → s.l.quicErr.closed = true) ∧ (2 < k → s.l.tcpSession.closed = true)
  closed_after : (s.l.quicSession.closed = true ∨ s.l.quicErr.closed = true ∨
    s.l.tcpSession.closed = true ∨ s.l.tcpErr.closed = true) → s.l.wg = 0
  returned_closed : s.closeResults ≠ [] →
    s.l.quicSession.closed = true ∧ s.l.quicErr.closed = true ∧
    s.l.tcpSession.closed = true ∧ s.l.tcpErr.closed = true ∧ s.l.wg = 0
  quicErr_done : s.l.quicErr.buf ≠ [] → s.serveQuic = LoopPc.done
  tcpErr_done : s.l.tcpErr.buf ≠ [] → s.serveTCP = LoopPc.done

/-! ## Sample libraries and values -/

/-- Libraries in which the QUIC side works iff `quicUp`, the TCP side iff `tcpUp`, the
certificate generation always, and a closer fails iff its number is odd. Accepts of a side
that is down fail; accepts of the QUIC library block. -/
def sampleEnv (quicUp tcpUp : Bool) : Env where
  quicDialAddr := fun _ target _ =>
    if quicUp then Except.ok { id := 1, localAddr := "10.0.0.1:40000", remoteAddr := target }
    else Except.error "quic: handshake timeout"
  quicConnClose := fun _ _ => none
  quicListenAddr := fun _ addr _ =>
    if quicUp then Except.ok { id := 10, addr := addr }
    else Except.error "listen udp: address already in use"
  quicLnAccept := fun _ _ => none
  quicLnClose := fun _ _ => none
  netDialTimeout := fun _ _ =>
    if tcpUp then Except.ok { id := 2, localAddr := "10.0.0.1:50000" }
    else Except.error "dial tcp: connection refused"
  netListen := fun _ addr =>
    if tcpUp then Except.ok { id := 20, addr := addr }
    else Except.error "listen tcp: address already in use"
  netLnAccept := fun _ _ =>
    if tcpUp then some (Except.ok { id := 3, localAddr := "10.0.0.2:9090" })
    else some (Except.error "accept tcp: use of closed network connection")
  netLnClose := fun _ _ => none
  netConnClose := fun _ _ => none
  tlsHandshake := fun _ _ _ => none
  tlsConnClose := fun _ _ => none
  yamuxClient := fun _ conn => Except.ok { id := conn }
  yamuxServer := fun _ conn => Except.ok { id := conn }
  yamuxClose := fun _ _ => none
  createCertificate := fun _ => Except.ok 7
  closerClose := fun _ c => if c % 2 = 1 then some "close failed" else none

/-- Libraries in which closing a TLS connection fails; everything else is as in
`sampleEnv true true`. -/
def failingTlsCloseEnv : Env :=
  { sampleEnv true true with
    tlsConnClose := fun _ _ => some "tls: failed to send closeNotify alert" }

/-- The world before any call. -/
def World.init : World := { trace := [], calls := [], spawned := [], picks := [] }

/-- A dialer of the given mode with no TLS configuration of its own. -/
def sampleDialer (mode : TransportMode) : dialer.Dialer :=
  { config := { Mode := mode, TLSConfig := none },
    quicDialer := { tlsConfig := none },
    tcpDialer := { tlsConfig := none, timeout := 10 } }

/-- A session the QUIC accept loop has produced for a peer. -/
def sampleQuicSession : MuxSession :=
  MuxSession.quic (some
    { conn := some { id := 31, localAddr := ":9090", remoteAddr := "10.0.0.3:41000" },
      localAddr := some ":9090", remoteAddr := some "10.0.0.3:41000" })

/-- The listener `NewListener` returns at ":9090" in mode "auto" when both binds succeed
in `sampleEnv true true`. -/
def sampleDualListener : dialer.Listener :=
  { config := { Mode := ModeAuto, TLSConfig := none },
    quicListener := some
      { ln := { id := 10, addr := ":9090" }, localAddr := ":9090",
        acceptChan := Chan.make 10, errChan := Chan.make 1 },
    tcpListener := some
      { ln := { id := 20, addr := ":9090" },
        tlsConfig := some { ident := 0, certificates := [7], insecureSkipVerify := false,
                            nextProtos := [cert.ALPN] },
        localAddr := ":9090" },
    quicSession := Chan.make 10, quicErr := Chan.make 1,
    tcpSession := Chan.make 10, tcpErr := Chan.make 1,
    closed := false, wg := 2 }

/-- The sample listener after the QUIC accept loop has buffered one session. -/
def listenerWithQuicSession : dialer.Listener :=
  { sampleDualListener with
    quicSession := { buf := [some sampleQuicSession], cap := 10, closed := false } }

/-- The sample listener after the QUIC accept loop has reported an error. -/
def listenerWithQuicErr : dialer.Listener :=
  { sampleDualListener with
    quicErr := { buf := [some "quic: server closed"], cap := 1, closed := false } }

/-- The sample listener with a session on the Q-session buffer, an error of the TCP accept
loop on the T-error buffer, and an error of the quic-go listener waiting in the QUIC
adapter. -/
def listenerWithSessionAndTcpErr : dialer.Listener :=
  { sampleDualListener with
    quicListener := some
      { ln := { id := 10, addr := ":9090" }, localAddr := ":9090",
        acceptChan := Chan.make 10,
        errChan := { buf := [some "quic: server closed"], cap := 1, closed := false } },
    quicSession := { buf := [some sampleQuicSession], cap := 10, closed := false },
    tcpErr := { buf := [some "remote error: tls: bad certificate"], cap := 1,
                closed := false } }

/-- The listener `NewListener` returns at ":9090" in mode "tcp" in `sampleEnv true true`. -/
def tcpOnlyListener : dialer.Listener :=
  { config := { Mode := ModeTCP, TLSConfig := none },
    quicListener := none,
    tcpListener := some
      { ln := { id := 20, addr := ":9090" },
        tlsConfig := some { ident := 0, certificates := [7], insecureSkipVerify := false,
                            nextProtos := [cert.ALPN] },
        localAddr := ":9090" },
    quicSession := Chan.make 10, quicErr := Chan.make 1,
    tcpSession := Chan.make 10, tcpErr := Chan.make 1,
    closed := false, wg := 1 }

/-- Libraries with no peer: an `Accept` of a library listener blocks until that listener
is closed and fails from then on; everything else is as in `sampleEnv true true`. -/
def quietEnv : Env :=
  { sampleEnv true true with
    quicLnAccept := fun tr ln =>
      if Event.quicLnClose ln ∈ tr then some (Except.error "quic: server closed") else none
    netLnAccept := fun tr ln =>
      if Event.netLnClose ln ∈ tr then
        some (Except.error "accept tcp: use of closed network connection")
      else none }

/-- Libraries with a TCP peer always waiting: every `Accept` of the net listener returns a
new connection, numbered after the length of the trace. -/
def busyTcpEnv : Env :=
  { sampleEnv false true with
    netLnAccept := fun tr _ =>
      some (Except.ok { id := 100 + tr.length, localAddr := "10.0.0.2:9090" }) }

/-- The event is a TLS handshake. -/
def isHandshake : Event → Bool
  | Event.tlsHandshake _ => true
  | _ => false

/-- Libraries in which TCP peers keep connecting and the first TLS handshake fails, while
a single QUIC peer connects and no other ever does. -/
def flakyTcpEnv : Env :=
  { sampleEnv true true with
    quicLnAccept := fun tr ln =>
      if Event.quicLnAccept ln ∈ tr then none
      else some (Except.ok { id := 31, localAddr := ":9090", remoteAddr := "10.0.0.3:41000" })
    netLnAccept := fun tr _ =>
      some (Except.ok { id := 100 + tr.length, localAddr := "10.0.0.2:9090" })
    tlsHandshake := fun tr _ _ =>
      if tr.any isHandshake then none else some "remote error: tls: bad certificate" }

/-- A run of the sample dual listener in which `Close` is called once and returns: both
accept loops enter `Accept`, `Close` sets the flag and closes the two listeners, the three
loops see the failure, report it and return, and `Close` closes the four buffers. -/
def closeSchedule : List Actor :=
  [Actor.serveQuic, Actor.serveTCP, Actor.close, Actor.close,
   Actor.acceptLoop, Actor.acceptLoop,
   Actor.serveQuic, Actor.serveQuic, Actor.serveTCP, Actor.serveTCP,
   Actor.close, Actor.close, Actor.close, Actor.close, Actor.close]

/-- A run of the sample dual listener in `flakyTcpEnv`: the TCP loop accepts a connection
whose handshake fails, reports the error and returns; the QUIC adapter accepts its one
peer; a first `Accept` takes the TCP error and falls back to the QUIC listener, which
hands over that peer; the QUIC loop enters `Accept`. -/
def fallbackSchedule : List Actor :=
  [Actor.serveTCP, Actor.serveTCP, Actor.serveTCP, Actor.acceptLoop, Actor.acceptLoop,
   Actor.accept, Actor.serveQuic]

/-- A run of the sample TCP-only listener in `busyTcpEnv`: the TCP loop accepts a first
connection and puts its session on the T-session buffer; two calls of `Accept` follow. -/
def strandSchedule : List Actor :=
  [Actor.serveTCP, Actor.serveTCP, Actor.serveTCP, Actor.accept, Actor.accept]

/-- The session of the TCP adapter over the connection numbered `n` of `busyTcpEnv`. -/
def busyTcpSession (n : Nat) : MuxSession :=
  MuxSession.tcp (some
    { session := some { id := n },
      tlsConn := some { conn := { id := n, localAddr := "10.0.0.2:9090" } },
      localAddr := some ":9090" })

/-- The sample dual listener after the run `closeSchedule` in `quietEnv`: the flag is set,
the wait group is at zero, the four buffers are closed; the two errors of the accept loops
are still on the error buffers. -/
def closedDualListener : dialer.Listener :=
  { sampleDualListener with
    quicSession := { buf := [], cap := 10, closed := true },
    quicErr := { buf := [some "quic: server closed"], cap := 1, closed := true },
    tcpSession := { buf := [], cap := 10, closed := true },
    tcpErr := { buf := [some "accept tcp: use of closed network connection"], cap := 1,
                closed := true },
    closed := true, wg := 0 }

/-- The world in which `NewListener` returns the sample dual listener: two certificates
have been generated and the two library listeners bound. -/
def dualBoundWorld : World :=
  { trace := [Event.createCertificate, Event.quicListenAddr ":9090",
              Event.createCertificate, Event.netListen ":9090"],
    calls := [Method.quicListen, Method.tcpListen],
    spawned := [Task.quicAcceptLoop 10, Task.serveQuic, Task.serveTCP],
    picks := [] }

/-- The world in which `NewListener` returns the sample TCP-only listener. -/
def tcpBoundWorld : World :=
  { trace := [Event.createCertificate, Event.netListen ":9090"],
    calls := [Method.tcpListen],
    spawned := [Task.serveTCP],
    picks := [] }

/-- The system after the run `closeSchedule` in `quietEnv`: `Close` has returned `nil` and
the three loops have returned. -/
def closedDualSystem : System :=
  { l := closedDualListener,
    w := { dualBoundWorld with
           trace := dualBoundWorld.trace ++
             [Event.quicLnClose 10, Event.netLnClose 20, Event.quicLnAccept 10,
              Event.netLnAccept 20],
           calls := dualBoundWorld.calls ++
             [Method.quicClose, Method.tcpClose, Method.quicAccept, Method.tcpAccept] },
    serveQuic := LoopPc.done, serveTCP := LoopPc.done, acceptLoop := LoopPc.done,
    closePc := ClosePc.idle, closeResults := [none], accepted := [], crashed := none }

/-- The system after the run `fallbackSchedule` in `flakyTcpEnv`: the TCP accept loop has
returned, the first `Accept` has returned the session of the QUIC peer, the four buffers
are empty and open, and the QUIC loops wait in `Accept`. -/
def fallbackSystem : System :=
  { l := { sampleDualListener with wg := 1 },
    w := { dualBoundWorld with
           trace := dualBoundWorld.trace ++
             [Event.netLnAccept 20, Event.tlsHandshake 104, Event.netConnClose 104,
              Event.quicLnAccept 10],
           calls := dualBoundWorld.calls ++ [Method.tcpAccept, Method.quicAccept] },
    serveQuic := LoopPc.inAccept, serveTCP := LoopPc.done, acceptLoop := LoopPc.inAccept,
    closePc := ClosePc.idle, closeResults := [], accepted := [(some sampleQuicSession, none)],
    crashed := none }

/-! # Properties -/

section Lemmas

@[simp] theorem run_pure {α : Type} (a : α) (w : World) :
    (Pure.pure a : Go α).run w = (Outcome.ret a, w) := rfl

@[simp] theorem run_bind {α β : Type} (m : Go α) (f : α → Go β) (w : World) :
    (m >>= f).run w =
      match m.run w with
      | (Outcome.ret a, w') => (f a).run w'
      | (Outcome.panic msg, w') => (Outcome.panic msg, w')
      | (Outcome.block, w') => (Outcome.block, w') := rfl

@[simp] theorem run_libcall {α : Type} (e : Event) (oracle : List Event → α) (w : World) :
    (libcall e oracle).run w =
      (Outcome.ret (oracle w.trace), { w with trace := w.trace ++ [e] }) := rfl

@[simp] theorem run_enter (m : Method) (w : World) :
    (enter m).run w = (Outcome.ret (), { w with calls := w.calls ++ [m] }) := rfl

@[simp] theorem run_spawn (t : Task) (w : World) :
    (spawn t).run w = (Outcome.ret (), { w with spawned := w.spawned ++ [t] }) := rfl

@[simp] theorem run_nilDeref {α : Type} (w : World) :
    (nilDeref : Go α).run w =
      (Outcome.panic "invalid memory address or nil pointer dereference", w) := rfl

@[simp] theorem run_blocked {α : Type} (w : World) :
    (blocked : Go α).run w = (Outcome.block, w) := rfl

theorem quic_dial_calls (env : Env) (d : quic.Dialer) (target : String) (w : World) :
    ((d.Dial env target).run w).2.calls = w.calls ++ [Method.quicDial] := by
  simp [quic.Dialer.Dial]
  split <;> simp

theorem tcp_dial_calls (env : Env) (d : tcp.Dialer) (target : String) (w : World) :
    ((d.Dial env target).run w).2.calls = w.calls ++ [Method.tcpDial] := by
  simp [tcp.Dialer.Dial, tcp.tlsConnClose]
  split
  · simp
  · simp
    split
    · simp
    · simp
      split <;> simp

theorem modeAuto_ne_modeQUIC : ModeAuto ≠ ModeQUIC := by decide

theorem modeAuto_ne_modeTCP : ModeAuto ≠ ModeTCP := by decide

theorem modeTCP_ne_modeQUIC : ModeTCP ≠ ModeQUIC := by decide

theorem run_ensureServerTLSConfig (env : Env) (tlsConfig : Option TLSConfig) (w : World) :
    (tls.EnsureServerTLSConfig env tlsConfig).run w =
      match tlsConfig with
      | some c => (Outcome.ret (some c, none), w)
      | none =>
        (Outcome.ret (match env.createCertificate w.trace with
            | Except.ok certificate =>
              (some { ident := 0, certificates := [certificate], insecureSkipVerify := false,
                      nextProtos := [cert.ALPN] }, none)
            | Except.error e => (none, some e)),
          { w with trace := w.trace ++ [Event.createCertificate] }) := by
  cases tlsConfig with
  | some c => rfl
  | none =>
    simp only [tls.EnsureServerTLSConfig, cert.GenerateSelfSignedConfig, run_bind, run_libcall]
    cases env.createCertificate w.trace <;> rfl

/-- The shape of `quic.Listen`: it returns a listener and a nil error, having started the
accept loop of that listener, or no listener and an error, having started nothing. -/
theorem quic_listen_run (env : Env) (addr : String) (tlsConfig : Option TLSConfig) (w : World) :
    ((∃ l, ((quic.Listen env addr tlsConfig).run w).1 = Outcome.ret (some l, none) ∧
      ((quic.Listen env addr tlsConfig).run w).2.spawned =
        w.spawned ++ [Task.quicAcceptLoop l.ln.id]) ∨
    (∃ e, ((quic.Listen env addr tlsConfig).run w).1 = Outcome.ret (none, some e) ∧
      ((quic.Listen env addr tlsConfig).run w).2.spawned = w.spawned)) ∧
    ((quic.Listen env addr tlsConfig).run w).2.calls = w.calls ++ [Method.quicListen] := by
  simp only [quic.Listen, run_bind, run_enter, run_ensureServerTLSConfig]
  cases tlsConfig with
  | none =>
    cases env.createCertificate w.trace with
    | error e => simp
    | ok c =>
      simp only [run_bind, run_libcall]
      cases env.quicListenAddr (w.trace ++ [Event.createCertificate]) addr
        (some { ident := 0, certificates := [c], insecureSkipVerify := false,
                nextProtos := [cert.ALPN] }) <;>
        simp [quic.NewListener]
  | some c =>
    simp only [run_bind, run_libcall]
    cases env.quicListenAddr w.trace addr (some c) <;> simp [quic.NewListener]

/-- The shape of `tcp.Listen`: a listener and a nil error, or no listener and an error; no
goroutine is started. -/
theorem tcp_listen_run (env : Env) (addr : String) (tlsConfig : Option TLSConfig) (w : World) :
    ((∃ l, ((tcp.Listen env addr tlsConfig).run w).1 = Outcome.ret (some l, none)) ∨
    (∃ e, ((tcp.Listen env addr tlsConfig).run w).1 = Outcome.ret (none, some e))) ∧
    ((tcp.Listen env addr tlsConfig).run w).2.spawned = w.spawned ∧
    ((tcp.Listen env addr tlsConfig).run w).2.calls = w.calls ++ [Method.tcpListen] := by
  simp only [tcp.Listen, run_bind, run_enter, run_ensureServerTLSConfig]
  cases tlsConfig with
  | none =>
    cases env.createCertificate w.trace with
    | error e => simp
    | ok c =>
      simp only [run_bind, run_libcall]
      cases env.netListen (w.trace ++ [Event.createCertificate]) addr <;>
        simp [tcp.NewListener]
  | some c =>
    simp only [run_bind, run_libcall]
    cases env.netListen w.trace addr <;> simp [tcp.NewListener]

theorem run_libcallBlocking {α : Type} (e : Event) (oracle : List Event → Option α)
    (w : World) :
    (libcallBlocking e oracle).run w =
      (match oracle w.trace with
        | some a => Outcome.ret a
        | none => Outcome.block, { w with trace := w.trace ++ [e] }) := by
  simp only [libcallBlocking]
  cases oracle w.trace <;> rfl

/-- The choice of `select`: nothing when no case is ready, else one of the ready cases; it
makes no library call and enters no adapter method. -/
theorem pickCase_run {κ : Type} (ready : List κ) (w : World) :
    ∃ r w', (pickCase ready).run w = (Outcome.ret r, w') ∧
      (ready = [] → r = none) ∧ (ready ≠ [] → ∃ k, k ∈ ready ∧ r = some k) ∧
      w'.trace = w.trace ∧ w'.calls = w.calls ∧ w'.spawned = w.spawned := by
  cases ready with
  | nil => exact ⟨none, w, rfl, fun _ => rfl, fun h => absurd rfl h, rfl, rfl, rfl⟩
  | cons k ks =>
    cases hp : w.picks with
    | nil =>
      refine ⟨some k, w, ?_, ?_, ?_, rfl, rfl, rfl⟩
      · simp [pickCase, hp]
      · intro h; cases h
      · intro _; exact ⟨k, List.mem_cons_self _ _, rfl⟩
    | cons p ps =>
      have hlt : p % (k :: ks).length < (k :: ks).length := Nat.mod_lt _ (by simp)
      refine ⟨some ((k :: ks).get ⟨p % (k :: ks).length, hlt⟩), { w with picks := ps },
        ?_, ?_, ?_, rfl, rfl, rfl⟩
      · simp only [pickCase, hp]
        rw [List.get?_eq_get hlt]
      · intro h; cases h
      · intro _; exact ⟨_, List.get_mem _ _ _, rfl⟩

theorem tcp_accept_calls (env : Env) (l : tcp.Listener) (w : World) :
    ((l.Accept env).run w).2.calls = w.calls ++ [Method.tcpAccept] := by
  simp only [tcp.Listener.Accept, run_bind, run_enter, run_libcallBlocking]
  cases env.netLnAccept w.trace l.ln.id with
  | none => simp
  | some r =>
    cases r with
    | error e => simp
    | ok conn =>
      simp [tcp.tlsConnClose]
      split
      · simp
      · simp
        split <;> simp

theorem quic_accept_calls (l : quic.Listener) (w : World) :
    ((l.Accept).run w).2.calls = w.calls ++ [Method.quicAccept] := by
  obtain ⟨r, w', hrun, -, -, -, hcalls, -⟩ :=
    pickCase_run l.readyCases { w with calls := w.calls ++ [Method.quicAccept] }
  simp only [quic.Listener.Accept, run_bind, run_enter, hrun]
  rcases r with _ | _ | _ <;> simp [hcalls]

/-- The sample dual listener is the one `NewListener` builds. -/
theorem newListener_sampleDualListener :
    ((dialer.NewListener (sampleEnv true true) ":9090"
        (some { Mode := ModeAuto, TLSConfig := none })).run World.init).1 =
      Outcome.ret (some sampleDualListener, none) := by
  decide

/-- A listener returned by `quic.Listen` has its two channels open and empty. -/
theorem quic_listen_fresh (env : Env) (addr : String) (tlsConfig : Option TLSConfig)
    (w w' : World) (q : quic.Listener) (e : Err)
    (h : (quic.Listen env addr tlsConfig).run w = (Outcome.ret (some q, e), w')) :
    q.acceptChan = Chan.make 10 ∧ q.errChan = Chan.make 1 := by
  revert h
  simp only [quic.Listen, run_bind, run_enter, run_ensureServerTLSConfig]
  cases tlsConfig with
  | none =>
    cases env.createCertificate w.trace with
    | error e => simp
    | ok c =>
      simp only [run_bind, run_libcall]
      cases env.quicListenAddr (w.trace ++ [Event.createCertificate]) addr
        (some { ident := 0, certificates := [c], insecureSkipVerify := false,
                nextProtos := [cert.ALPN] }) <;>
        simp [quic.NewListener]
      rintro rfl _ _
      exact ⟨rfl, rfl⟩
  | some c =>
    simp only [run_bind, run_libcall]
    cases env.quicListenAddr w.trace addr (some c) <;> simp [quic.NewListener]
    rintro rfl _ _
    exact ⟨rfl, rfl⟩

/-- A listener returned by `NewListener` with a nil error: its four buffers are open and
empty, the flag is unset, the counter of the wait group is the number of bound listeners,
and at least one listener is bound. -/
theorem newListener_fresh (env : Env) (addr : String) (config : Option transport.Config)
    (w w' : World) (l : dialer.Listener)
    (h : (dialer.NewListener env addr config).run w = (Outcome.ret (some l, none), w')) :
    l.quicSession = Chan.make 10 ∧ l.quicErr = Chan.make 1 ∧
    l.tcpSession = Chan.make 10 ∧ l.tcpErr = Chan.make 1 ∧ l.closed = false ∧
    l.wg = (if l.quicListener ≠ none then 1 else 0) + (if l.tcpListener ≠ none then 1 else 0) ∧
    (l.quicListener ≠ none ∨ l.tcpListener ≠ none) ∧
    (∀ q, l.quicListener = some q → q.acceptChan = Chan.make 10 ∧ q.errChan = Chan.make 1) := by
  have hc : ∃ cfg, dialer.NewListener env addr config =
      dialer.NewListener env addr (some cfg) := by
    cases config with
    | none => exact ⟨dialer.defaultConfig, rfl⟩
    | some c => exact ⟨c, rfl⟩
  obtain ⟨cfg, hc⟩ := hc
  rw [hc] at h
  revert h
  simp only [dialer.NewListener]
  by_cases hq : cfg.Mode = ModeQUIC
  · simp only [hq, if_true, run_bind]
    have hs := quic_listen_run env addr (dialer.extractTLSConfig cfg.TLSConfig) w
    have hf := quic_listen_fresh env addr (dialer.extractTLSConfig cfg.TLSConfig) w
    revert hs hf
    generalize (quic.Listen env addr (dialer.extractTLSConfig cfg.TLSConfig)).run w = rq
    rcases rq with ⟨oq, w1⟩
    rcases oq with ⟨ql, qe⟩ | msg | _ <;> simp only []
    · intro hs hf
      cases qe <;> cases ql <;> simp [dialer.NewListener.start] at hs ⊢
      rename_i q
      rintro rfl _
      have := hf w1 q none rfl
      simp [this]
    · simp
    · simp
  · by_cases ht : cfg.Mode = ModeTCP
    · simp only [ht, modeTCP_ne_modeQUIC, if_true, if_false, run_bind]
      have hs := tcp_listen_run env addr (dialer.extractTLSConfig cfg.TLSConfig) w
      revert hs
      generalize (tcp.Listen env addr (dialer.extractTLSConfig cfg.TLSConfig)).run w = rt
      rcases rt with ⟨ot, w1⟩
      rcases ot with ⟨tl, te⟩ | msg | _ <;> simp only []
      · intro hs
        cases te <;> cases tl <;> simp [dialer.NewListener.start] at hs ⊢
        rintro rfl _
        simp
      · simp
      · simp
    · simp only [hq, ht, if_false, run_bind]
      have hs := quic_listen_run env addr (dialer.extractTLSConfig cfg.TLSConfig) w
      have hf := quic_listen_fresh env addr (dialer.extractTLSConfig cfg.TLSConfig) w
      revert hs hf
      generalize (quic.Listen env addr (dialer.extractTLSConfig cfg.TLSConfig)).run w = rq
      rcases rq with ⟨oq, w1⟩
      rcases oq with ⟨ql, qe⟩ | msg | _ <;> simp only []
      · have hts := tcp_listen_run env addr (dialer.extractTLSConfig cfg.TLSConfig) w1
        revert hts
        generalize (tcp.Listen env addr (dialer.extractTLSConfig cfg.TLSConfig)).run w1 = rt
        rcases rt with ⟨ot, w2⟩
        rcases ot with ⟨tl, te⟩ | msg | _ <;> simp only []
        · intro hts hs hf
          cases te <;> cases tl <;> cases qe <;> cases ql <;>
            simp [dialer.NewListener.start, quic.Listener.Close] at hs hts ⊢
          all_goals rintro rfl _
          all_goals simp
          all_goals exact hf _ _ none rfl
        · simp
        · simp
      · simp
      · simp

/-- A session returned by the QUIC dial is a `quic.Session`. -/
theorem quic_dial_session (env : Env) (d : quic.Dialer) (target : String) (w w' : World)
    (s : MuxSession) (e : Err)
    (h : (d.Dial env target).run w = (Outcome.ret (some s, e), w')) :
    ∃ p, s = MuxSession.quic p := by
  revert h
  simp only [quic.Dialer.Dial, run_bind, run_enter, run_libcall]
  cases env.quicDialAddr w.trace target d.tlsConfig <;> simp
  rintro rfl _ _
  exact ⟨_, rfl⟩

/-- A session returned by the TCP dial is a `tcp.Session`. -/
theorem tcp_dial_session (env : Env) (d : tcp.Dialer) (target : String) (w w' : World)
    (s : MuxSession) (e : Err)
    (h : (d.Dial env target).run w = (Outcome.ret (some s, e), w')) :
    ∃ p, s = MuxSession.tcp p := by
  revert h
  simp only [tcp.Dialer.Dial, run_bind, run_enter, run_libcall]
  cases env.netDialTimeout w.trace target with
  | error err => simp
  | ok conn =>
    simp [tcp.tlsConnClose]
    split
    · simp
    · simp
      split
      · simp
      · simp
        rintro rfl _ _
        exact ⟨_, rfl⟩

end Lemmas

section Dial

open dialer

/-- Claim C1. A dialer in mode "quic" or "tcp" runs the dial of the requested adapter and
nothing else: the outcome and the world after `Dial` are those of that adapter's `Dial`, and
the adapter calls `Dial` adds are exactly one call of the requested adapter's `Dial`. -/
theorem dial_forced_mode (env : Env) (d : Dialer) (target : String) (w : World)
    (h : d.config.Mode = ModeQUIC ∨ d.config.Mode = ModeTCP) :
    (d.Dial env target).run w =
      (if d.config.Mode = ModeQUIC then (d.quicDialer.Dial env target).run w
        else (d.tcpDialer.Dial env target).run w) ∧
    ((d.Dial env target).run w).2.calls =
      w.calls ++ [if d.config.Mode = ModeQUIC then Method.quicDial else Method.tcpDial] := by
  rcases h with h | h
  · simp [Dialer.Dial, Dialer.dialQUIC, h, quic_dial_calls]
  · simp [Dialer.Dial, Dialer.dialTCP, h, modeTCP_ne_modeQUIC, tcp_dial_calls]

/-- An instance at a "tcp" dialer whose QUIC and TCP sides are both
reachable. -/
theorem dial_forced_mode_witness :
    ((sampleDialer ModeTCP).config.Mode = ModeQUIC ∨
      (sampleDialer ModeTCP).config.Mode = ModeTCP) ∧
    (((sampleDialer ModeTCP).Dial (sampleEnv true true) "10.0.0.2:9090").run World.init =
      (if (sampleDialer ModeTCP).config.Mode = ModeQUIC then
        ((sampleDialer ModeTCP).quicDialer.Dial (sampleEnv true true) "10.0.0.2:9090").run
          World.init
        else
          ((sampleDialer ModeTCP).tcpDialer.Dial (sampleEnv true true) "10.0.0.2:9090").run
            World.init) ∧
    (((sampleDialer ModeTCP).Dial (sampleEnv true true) "10.0.0.2:9090").run World.init).2.calls =
      World.init.calls ++
        [if (sampleDialer ModeTCP).config.Mode = ModeQUIC then Method.quicDial
          else Method.tcpDial]) :=
  ⟨Or.inr rfl,
    dial_forced_mode (sampleEnv true true) (sampleDialer ModeTCP) "10.0.0.2:9090" World.init
      (Or.inr rfl)⟩

/-- Claim C2. In mode "auto", when the QUIC dial returns a non-nil error, `Dial` then runs
the TCP dial once and its outcome is the outcome of that TCP dial: the TCP session with a nil
error, or the TCP error. -/
theorem dial_auto_falls_back_to_tcp (env : Env) (d : Dialer) (target : String) (w : World)
    (session : Option MuxSession) (quicErr : String)
    (hmode : d.config.Mode = ModeAuto)
    (hq : ((d.quicDialer.Dial env target).run w).1 = Outcome.ret (session, some quicErr)) :
    (d.Dial env target).run w =
      (d.tcpDialer.Dial env target).run ((d.quicDialer.Dial env target).run w).2 ∧
    ((d.Dial env target).run w).2.calls = w.calls ++ [Method.quicDial, Method.tcpDial] := by
  have hc := quic_dial_calls env d.quicDialer target w
  have ht := tcp_dial_calls env d.tcpDialer target ((d.quicDialer.Dial env target).run w).2
  revert hq hc ht
  simp only [Dialer.Dial, hmode, modeAuto_ne_modeQUIC, modeAuto_ne_modeTCP, if_false, if_true,
    Dialer.dialAuto, run_bind]
  generalize (d.quicDialer.Dial env target).run w = r
  rcases r with ⟨o, w'⟩
  intro hq hc ht
  simp only at hq hc ht
  subst hq
  simp [hc, ht]

/-- An instance at an "auto" dialer whose QUIC side is down
and whose TCP side is up. -/
theorem dial_auto_falls_back_to_tcp_witness :
    (sampleDialer ModeAuto).config.Mode = ModeAuto ∧
    ((((sampleDialer ModeAuto).quicDialer.Dial (sampleEnv false true) "10.0.0.2:9090").run
        World.init).1 = Outcome.ret (none, some "quic: handshake timeout")) ∧
    (((sampleDialer ModeAuto).Dial (sampleEnv false true) "10.0.0.2:9090").run World.init =
      ((sampleDialer ModeAuto).tcpDialer.Dial (sampleEnv false true) "10.0.0.2:9090").run
        (((sampleDialer ModeAuto).quicDialer.Dial (sampleEnv false true) "10.0.0.2:9090").run
          World.init).2 ∧
    (((sampleDialer ModeAuto).Dial (sampleEnv false true) "10.0.0.2:9090").run
        World.init).2.calls = World.init.calls ++ [Method.quicDial, Method.tcpDial]) :=
  ⟨rfl, rfl,
    dial_auto_falls_back_to_tcp (sampleEnv false true) (sampleDialer ModeAuto) "10.0.0.2:9090"
      World.init none "quic: handshake timeout" rfl rfl⟩

/-- Claim C3. In mode "auto", when the QUIC dial returns a nil error, `Dial` returns the
session of that dial with a nil error, in the world the QUIC dial left, and the only adapter
call it adds is the QUIC dial: the TCP dial is not called. -/
theorem dial_auto_prefers_quic (env : Env) (d : Dialer) (target : String) (w : World)
    (session : Option MuxSession)
    (hmode : d.config.Mode = ModeAuto)
    (hq : ((d.quicDialer.Dial env target).run w).1 = Outcome.ret (session, none)) :
    (d.Dial env target).run w =
      (Outcome.ret (session, none), ((d.quicDialer.Dial env target).run w).2) ∧
    ((d.Dial env target).run w).2.calls = w.calls ++ [Method.quicDial] ∧
    Method.tcpDial ∉ ((d.Dial env target).run w).2.calls.drop w.calls.length := by
  have hc := quic_dial_calls env d.quicDialer target w
  revert hq hc
  simp only [Dialer.Dial, hmode, modeAuto_ne_modeQUIC, modeAuto_ne_modeTCP, if_false, if_true,
    Dialer.dialAuto, run_bind]
  generalize (d.quicDialer.Dial env target).run w = r
  rcases r with ⟨o, w'⟩
  intro hq hc
  simp only at hq hc
  subst hq
  simp [hc]

/-- An instance at an "auto" dialer whose two sides are up. -/
theorem dial_auto_prefers_quic_witness :
    (sampleDialer ModeAuto).config.Mode = ModeAuto ∧
    ((((sampleDialer ModeAuto).quicDialer.Dial (sampleEnv true true) "10.0.0.2:9090").run
        World.init).1 =
      Outcome.ret (some (MuxSession.quic (some
        { conn := some { id := 1, localAddr := "10.0.0.1:40000", remoteAddr := "10.0.0.2:9090" },
          localAddr := some "10.0.0.1:40000", remoteAddr := some "10.0.0.2:9090" })), none)) ∧
    (((sampleDialer ModeAuto).Dial (sampleEnv true true) "10.0.0.2:9090").run World.init =
      (Outcome.ret (some (MuxSession.quic (some
        { conn := some { id := 1, localAddr := "10.0.0.1:40000", remoteAddr := "10.0.0.2:9090" },
          localAddr := some "10.0.0.1:40000", remoteAddr := some "10.0.0.2:9090" })), none),
        (((sampleDialer ModeAuto).quicDialer.Dial (sampleEnv true true) "10.0.0.2:9090").run
          World.init).2) ∧
    (((sampleDialer ModeAuto).Dial (sampleEnv true true) "10.0.0.2:9090").run
        World.init).2.calls = World.init.calls ++ [Method.quicDial] ∧
    Method.tcpDial ∉ (((sampleDialer ModeAuto).Dial (sampleEnv true true) "10.0.0.2:9090").run
        World.init).2.calls.drop World.init.calls.length) :=
  ⟨rfl, rfl,
    dial_auto_prefers_quic (sampleEnv true true) (sampleDialer ModeAuto) "10.0.0.2:9090"
      World.init _ rfl rfl⟩

/-- Claim C4. A mode string other than "auto", "quic" and "tcp" (the empty string
included) is handled as "auto": `Dial` has the same outcome and leaves the same world, and
`NewListener` leaves the same world and has the same outcome, the same error and the same
listener up to the stored `config`. -/
theorem unrecognized_mode_is_auto (env : Env) (m : TransportMode)
    (tlsConfig : Option TLSConfig) (quicDialer : quic.Dialer) (tcpDialer : tcp.Dialer)
    (target addr : String) (w : World)
    (hm : m ≠ ModeAuto ∧ m ≠ ModeQUIC ∧ m ≠ ModeTCP) :
    (Dialer.Dial env (Dialer.mk (transport.Config.mk m tlsConfig) quicDialer tcpDialer)
        target).run w =
      (Dialer.Dial env (Dialer.mk (transport.Config.mk ModeAuto tlsConfig) quicDialer tcpDialer)
        target).run w ∧
    ((NewListener env addr (some (transport.Config.mk m tlsConfig))).run w).2 =
      ((NewListener env addr (some (transport.Config.mk ModeAuto tlsConfig))).run w).2 ∧
    ((NewListener env addr (some (transport.Config.mk m tlsConfig))).run w).1 =
      Outcome.map
        (fun r => (r.1.map (fun l => { l with config := transport.Config.mk m tlsConfig }), r.2))
        ((NewListener env addr (some (transport.Config.mk ModeAuto tlsConfig))).run w).1 := by
  obtain ⟨h1, h2, h3⟩ := hm
  refine ⟨?_, ?_, ?_⟩
  · simp [Dialer.Dial, h1, h2, h3, modeAuto_ne_modeQUIC, modeAuto_ne_modeTCP, Dialer.dialAuto]
  · simp only [NewListener, h2, h3, modeAuto_ne_modeQUIC, modeAuto_ne_modeTCP, if_false,
      run_bind, extractTLSConfig]
    generalize (quic.Listen env addr _).run w = rq
    rcases rq with ⟨oq, w1⟩
    rcases oq with ⟨ql, qe⟩ | msg | _ <;> simp only []
    generalize (tcp.Listen env addr _).run w1 = rt
    rcases rt with ⟨ot, w2⟩
    rcases ot with ⟨tl, te⟩ | msg | _ <;> simp only []
    cases te <;> cases qe <;> cases ql <;> cases tl <;>
      simp [NewListener.start, quic.Listener.Close]
  · simp only [NewListener, h2, h3, modeAuto_ne_modeQUIC, modeAuto_ne_modeTCP, if_false,
      run_bind, extractTLSConfig]
    generalize (quic.Listen env addr _).run w = rq
    rcases rq with ⟨oq, w1⟩
    rcases oq with ⟨ql, qe⟩ | msg | _ <;> simp only [Outcome.map]
    generalize (tcp.Listen env addr _).run w1 = rt
    rcases rt with ⟨ot, w2⟩
    rcases ot with ⟨tl, te⟩ | msg | _ <;> simp only [Outcome.map]
    cases te <;> cases qe <;> cases ql <;> cases tl <;>
      simp [NewListener.start, Outcome.map, quic.Listener.Close]

/-- An instance at the empty mode string, with the QUIC side
down and the TCP side up. -/
theorem unrecognized_mode_is_auto_witness :
    (("" : TransportMode) ≠ ModeAuto ∧ ("" : TransportMode) ≠ ModeQUIC ∧
      ("" : TransportMode) ≠ ModeTCP) ∧
    ((Dialer.Dial (sampleEnv false true)
        (Dialer.mk (transport.Config.mk "" none) (quic.Dialer.mk none) (tcp.Dialer.mk none 10))
        "10.0.0.2:9090").run World.init =
      (Dialer.Dial (sampleEnv false true)
        (Dialer.mk (transport.Config.mk ModeAuto none) (quic.Dialer.mk none)
          (tcp.Dialer.mk none 10))
        "10.0.0.2:9090").run World.init ∧
    ((NewListener (sampleEnv false true) ":9090"
        (some (transport.Config.mk "" none))).run World.init).2 =
      ((NewListener (sampleEnv false true) ":9090"
        (some (transport.Config.mk ModeAuto none))).run World.init).2 ∧
    ((NewListener (sampleEnv false true) ":9090"
        (some (transport.Config.mk "" none))).run World.init).1 =
      Outcome.map
        (fun r => (r.1.map (fun l => { l with config := transport.Config.mk "" none }), r.2))
        ((NewListener (sampleEnv false true) ":9090"
          (some (transport.Config.mk ModeAuto none))).run World.init).1) :=
  ⟨by decide,
    unrecognized_mode_is_auto (sampleEnv false true) "" none (quic.Dialer.mk none)
      (tcp.Dialer.mk none 10) "10.0.0.2:9090" ":9090" World.init (by decide)⟩

end Dial

section Close

/-- Claim C5. `CloseAll` returns normally; the library calls it adds are one `Close` for
each non-nil closer, in argument order, whatever the earlier closes returned, and none for a
nil entry; the value returned is the first non-nil error among those the closes returned, or
nil. -/
theorem closeAll_closes_all_returns_first_error (env : Env)
    (closers : List (Option utils.Closer)) (w : World) :
    (utils.CloseAll (utils.Closer.Close env) closers).run w =
      (Outcome.ret (firstError (closeErrors env w.trace closers)),
        { w with trace := w.trace ++
            (closers.filterMap id).map (fun c => Event.closerClose c.id) }) := by
  have hloop : ∀ (cs : List (Option utils.Closer)) (firstErr : Err) (w : World),
      (utils.CloseAll.loop (utils.Closer.Close env) cs firstErr).run w =
        (Outcome.ret (match firstErr with
            | some e => some e
            | none => firstError (closeErrors env w.trace cs)),
          { w with trace := w.trace ++
              (cs.filterMap id).map (fun c => Event.closerClose c.id) }) := by
    intro cs
    induction cs with
    | nil =>
      intro firstErr w
      cases firstErr <;> simp [utils.CloseAll.loop, closeErrors, firstError]
    | cons c cs ih =>
      intro firstErr w
      cases c with
      | none => simp [utils.CloseAll.loop, closeErrors, ih]
      | some c =>
        simp only [utils.CloseAll.loop, run_bind, utils.Closer.Close, run_libcall, closeErrors]
        cases hres : env.closerClose w.trace c.id <;> cases firstErr <;>
          simp [ih, firstError]
  simpa [utils.CloseAll] using hloop closers none w

/-- Claim C6. A session of the TCP adapter that owns a yamux session and a TLS connection:
`Close` closes the yamux session, then the TLS connection, one library call each, and
returns the first non-nil error of the two. The field `session` is a `*yamux.Session`,
whose `Close` returns nil on every path; `hy` says so of this call, so the case of a failed
yamux close does not arise. -/
theorem tcp_session_close_closes_both (env : Env) (y : YamuxSession) (c : TLSConn)
    (a : Option Addr) (w : World) (hy : env.yamuxClose w.trace y.id = none) :
    (tcp.Session.Close env (some (tcp.Session.mk (some y) (some c) a))).run w =
      (Outcome.ret (firstError [env.yamuxClose w.trace y.id,
          env.tlsConnClose (w.trace ++ [Event.yamuxClose y.id]) c.conn.id]),
        { w with trace := w.trace ++
            [Event.yamuxClose y.id, Event.tlsConnClose c.conn.id] }) := by
  simp only [tcp.Session.Close, tcp.tlsConnClose, run_bind, run_libcall, hy, firstError]
  cases h : env.tlsConnClose (w.trace ++ [Event.yamuxClose y.id]) c.conn.id <;>
    simp [firstError, h]

/-- A session over yamux session 5 and the TLS connection over connection 2, in libraries
whose TLS close fails: both are closed and the TLS error is returned. -/
theorem tcp_session_close_closes_both_witness :
    failingTlsCloseEnv.yamuxClose World.init.trace 5 = none ∧
    (tcp.Session.Close failingTlsCloseEnv
      (some (tcp.Session.mk (some { id := 5 })
        (some { conn := { id := 2, localAddr := "10.0.0.1:50000" } })
        (some "10.0.0.1:50000")))).run World.init =
      (Outcome.ret (some "tls: failed to send closeNotify alert"),
        { World.init with trace := [Event.yamuxClose 5, Event.tlsConnClose 2] }) :=
  ⟨rfl, tcp_session_close_closes_both failingTlsCloseEnv { id := 5 }
    { conn := { id := 2, localAddr := "10.0.0.1:50000" } } (some "10.0.0.1:50000")
    World.init rfl⟩

end Close

section Listen

open dialer

/-- Claim C7. `NewListener` in mode "auto", given what the two binds return. If the QUIC
bind fails and the TCP bind succeeds, a listener is returned with a nil error, holding the
TCP listener only, and its TCP accept loop is started. If the TCP bind fails, no listener is
returned and the error is the TCP bind error; a QUIC listener bound before it has been
closed (one `Close` of that listener follows the binds), and nothing else happens. -/
theorem newListener_auto_bind_failures (env : Env) (addr : String) (config : transport.Config)
    (w w1 w2 : World) (q : Option quic.Listener × Err) (t : Option tcp.Listener × Err)
    (hmode : config.Mode = ModeAuto)
    (hq : (quic.Listen env addr (extractTLSConfig config.TLSConfig)).run w = (Outcome.ret q, w1))
    (ht : (tcp.Listen env addr (extractTLSConfig config.TLSConfig)).run w1 =
      (Outcome.ret t, w2)) :
    (q.2 ≠ none → t.2 = none →
      ∃ tl, t.1 = some tl ∧
        (NewListener env addr (some config)).run w =
          (Outcome.ret (some
              { config := config, quicListener := none, tcpListener := some tl,
                quicSession := Chan.make 10, quicErr := Chan.make 1,
                tcpSession := Chan.make 10, tcpErr := Chan.make 1,
                closed := false, wg := 1 }, none),
            { w2 with spawned := w2.spawned ++ [Task.serveTCP] })) ∧
    (t.2 ≠ none →
      ((NewListener env addr (some config)).run w).1 = Outcome.ret (none, t.2) ∧
      (∀ ql, q = (some ql, none) →
        ((NewListener env addr (some config)).run w).2 =
          { w2 with trace := w2.trace ++ [Event.quicLnClose ql.ln.id],
                    calls := w2.calls ++ [Method.quicClose] }) ∧
      (q.2 ≠ none → ((NewListener env addr (some config)).run w).2 = w2)) := by
  have hqs := quic_listen_run env addr (extractTLSConfig config.TLSConfig) w
  have hts := tcp_listen_run env addr (extractTLSConfig config.TLSConfig) w1
  simp only [hq, ht] at hqs hts
  simp only [NewListener, hmode, modeAuto_ne_modeQUIC, modeAuto_ne_modeTCP, if_false, run_bind,
    hq, ht]
  obtain ⟨ql, qe⟩ := q
  obtain ⟨tl, te⟩ := t
  cases qe <;> cases te <;> cases ql <;> cases tl <;>
    simp [NewListener.start, quic.Listener.Close] at hqs hts ⊢

/-- An instance where the QUIC bind succeeds and the TCP
bind fails: the TCP error is returned and QUIC listener 10 is closed. -/
theorem newListener_auto_bind_failures_witness :
    (transport.Config.mk ModeAuto none).Mode = ModeAuto ∧
    (quic.Listen (sampleEnv true false) ":9090" (extractTLSConfig none)).run World.init =
      (Outcome.ret
        (some { ln := { id := 10, addr := ":9090" }, localAddr := ":9090",
                acceptChan := Chan.make 10, errChan := Chan.make 1 }, none),
        { trace := [Event.createCertificate, Event.quicListenAddr ":9090"],
          calls := [Method.quicListen], spawned := [Task.quicAcceptLoop 10], picks := [] }) ∧
    (tcp.Listen (sampleEnv true false) ":9090" (extractTLSConfig none)).run
        { trace := [Event.createCertificate, Event.quicListenAddr ":9090"],
          calls := [Method.quicListen], spawned := [Task.quicAcceptLoop 10], picks := [] } =
      (Outcome.ret (none, some "listen tcp: address already in use"),
        { trace := [Event.createCertificate, Event.quicListenAddr ":9090",
            Event.createCertificate, Event.netListen ":9090"],
          calls := [Method.quicListen, Method.tcpListen],
          spawned := [Task.quicAcceptLoop 10], picks := [] }) ∧
    ((NewListener (sampleEnv true false) ":9090"
        (some (transport.Config.mk ModeAuto none))).run World.init).1 =
      Outcome.ret (none, some "listen tcp: address already in use") ∧
    ((NewListener (sampleEnv true false) ":9090"
        (some (transport.Config.mk ModeAuto none))).run World.init).2 =
      { trace := [Event.createCertificate, Event.quicListenAddr ":9090",
          Event.createCertificate, Event.netListen ":9090"] ++ [Event.quicLnClose 10],
        calls := [Method.quicListen, Method.tcpListen] ++ [Method.quicClose],
        spawned := [Task.quicAcceptLoop 10], picks := [] } :=
  ⟨rfl, rfl, rfl,
    ((newListener_auto_bind_failures (sampleEnv true false) ":9090"
      (transport.Config.mk ModeAuto none) World.init _ _ _ _ rfl rfl rfl).2 (by decide)).1,
    ((newListener_auto_bind_failures (sampleEnv true false) ":9090"
      (transport.Config.mk ModeAuto none) World.init _ _ _ _ rfl rfl rfl).2 (by decide)).2.1
      _ rfl⟩

/-- Claim C8. `NewListener` in mode "quic" or "tcp" calls the `Listen` of the requested
adapter and of no other. When that bind returns an error, `NewListener` returns no listener
and that error, in the world the bind left, where no goroutine has been started. When it
returns a nil error, the listener returned holds the listener of the requested adapter, the
other one is nil, and the accept loop of the requested adapter is started. -/
theorem newListener_forced_mode (env : Env) (addr : String) (config : transport.Config)
    (w : World) (hmode : config.Mode = ModeQUIC ∨ config.Mode = ModeTCP) :
    if config.Mode = ModeQUIC then
      ∀ q w1,
        (quic.Listen env addr (extractTLSConfig config.TLSConfig)).run w = (Outcome.ret q, w1) →
        ((NewListener env addr (some config)).run w).2.calls = w.calls ++ [Method.quicListen] ∧
        (q.2 ≠ none →
          (NewListener env addr (some config)).run w = (Outcome.ret (none, q.2), w1) ∧
          w1.spawned = w.spawned) ∧
        (q.2 = none → ∃ ql, q.1 = some ql ∧
          (NewListener env addr (some config)).run w =
            (Outcome.ret (some
                { config := config, quicListener := some ql, tcpListener := none,
                  quicSession := Chan.make 10, quicErr := Chan.make 1,
                  tcpSession := Chan.make 10, tcpErr := Chan.make 1,
                  closed := false, wg := 1 }, none),
              { w1 with spawned := w1.spawned ++ [Task.serveQuic] }))
    else
      ∀ t w1,
        (tcp.Listen env addr (extractTLSConfig config.TLSConfig)).run w = (Outcome.ret t, w1) →
        ((NewListener env addr (some config)).run w).2.calls = w.calls ++ [Method.tcpListen] ∧
        (t.2 ≠ none →
          (NewListener env addr (some config)).run w = (Outcome.ret (none, t.2), w1) ∧
          w1.spawned = w.spawned) ∧
        (t.2 = none → ∃ tl, t.1 = some tl ∧
          (NewListener env addr (some config)).run w =
            (Outcome.ret (some
                { config := config, quicListener := none, tcpListener := some tl,
                  quicSession := Chan.make 10, quicErr := Chan.make 1,
                  tcpSession := Chan.make 10, tcpErr := Chan.make 1,
                  closed := false, wg := 1 }, none),
              { w1 with spawned := w1.spawned ++ [Task.serveTCP] })) := by
  rcases hmode with hmode | hmode
  · rw [if_pos hmode]
    intro q w1 hq
    have hqs := quic_listen_run env addr (extractTLSConfig config.TLSConfig) w
    simp only [hq] at hqs
    simp only [NewListener, hmode, if_true, run_bind, hq]
    obtain ⟨ql, qe⟩ := q
    cases qe <;> cases ql <;> simp [NewListener.start] at hqs ⊢ <;> simp [hqs]
  · rw [if_neg (by rw [hmode]; exact modeTCP_ne_modeQUIC)]
    intro t w1 ht
    have hts := tcp_listen_run env addr (extractTLSConfig config.TLSConfig) w
    simp only [ht] at hts
    simp only [NewListener, hmode, modeTCP_ne_modeQUIC, if_false, if_true, run_bind, ht]
    obtain ⟨tl, te⟩ := t
    cases te <;> cases tl <;> simp [NewListener.start] at hts ⊢ <;> simp [hts]

/-- An instance in mode "quic" with the QUIC side down and the
TCP side up: the QUIC bind error is returned, TCP is not tried, nothing is started. -/
theorem newListener_forced_mode_witness :
    ((transport.Config.mk ModeQUIC none).Mode = ModeQUIC ∨
      (transport.Config.mk ModeQUIC none).Mode = ModeTCP) ∧
    (quic.Listen (sampleEnv false true) ":9090" (extractTLSConfig none)).run World.init =
      (Outcome.ret (none, some "listen udp: address already in use"),
        { trace := [Event.createCertificate, Event.quicListenAddr ":9090"],
          calls := [Method.quicListen], spawned := [], picks := [] }) ∧
    ((NewListener (sampleEnv false true) ":9090"
        (some (transport.Config.mk ModeQUIC none))).run World.init).2.calls =
      World.init.calls ++ [Method.quicListen] ∧
    (NewListener (sampleEnv false true) ":9090"
        (some (transport.Config.mk ModeQUIC none))).run World.init =
      (Outcome.ret (none, some "listen udp: address already in use"),
        { trace := [Event.createCertificate, Event.quicListenAddr ":9090"],
          calls := [Method.quicListen], spawned := [], picks := [] }) :=
  ⟨Or.inl rfl, rfl,
    (Eq.mp (if_pos rfl)
      (newListener_forced_mode (sampleEnv false true) ":9090"
        (transport.Config.mk ModeQUIC none) World.init (Or.inl rfl)) _ _ rfl).1,
    ((Eq.mp (if_pos rfl)
      (newListener_forced_mode (sampleEnv false true) ":9090"
        (transport.Config.mk ModeQUIC none) World.init (Or.inl rfl)) _ _ rfl).2.1
      (by decide)).1⟩

end Listen

section Accept

open dialer

/-- Claim C9 as stated fails. The listener holds a session on the Q-session buffer; an
error of the TCP accept loop is on the T-error buffer, so two cases of the `select` are
ready. When the run-time picks the second, `Accept` calls the QUIC listener's `Accept` and
returns its error: the result is no session and a non-nil error, and the buffered session
stays where it was. -/
theorem accept_dual_session_available_returns_error :
    (listenerWithSessionAndTcpErr.quicListener ≠ none ∧
      listenerWithSessionAndTcpErr.tcpListener ≠ none) ∧
    listenerWithSessionAndTcpErr.quicSession.buf = [some sampleQuicSession] ∧
    ((listenerWithSessionAndTcpErr.Accept (sampleEnv true true) 1).run
        { World.init with picks := [1] }).1 =
      Outcome.ret (some ((none, some "quic: server closed"),
        { sampleDualListener with
          quicSession := { buf := [some sampleQuicSession], cap := 10, closed := false } })) := by
  decide

/-- Claim C9, amended. In a dual-transport listener none of whose four buffers is closed
and whose error buffers are empty, when a session is on the Q-session or the T-session
buffer, `Accept` returns, with a nil error and without any library or adapter call, the
head of one of the two session buffers, and removes it from that buffer. When the T-session
buffer is empty, the session returned is the head of the Q-session buffer. One iteration of
the loop is enough. -/
theorem accept_dual_returns_buffered_session (env : Env) (fuel : Nat) (l : Listener) (w : World)
    (hdual : l.quicListener ≠ none ∧ l.tcpListener ≠ none)
    (hopen : l.quicSession.closed = false ∧ l.tcpSession.closed = false ∧
      l.quicErr.closed = false ∧ l.tcpErr.closed = false)
    (hnoerr : l.quicErr.buf = [] ∧ l.tcpErr.buf = [])
    (havail : l.quicSession.buf ≠ [] ∨ l.tcpSession.buf ≠ []) :
    (∃ s rest l' w',
      (l.Accept env (fuel + 1)).run w = (Outcome.ret (some ((s, none), l')), w') ∧
      w'.trace = w.trace ∧ w'.calls = w.calls ∧
      ((l.quicSession.buf = s :: rest ∧
          l' = { l with quicSession := { l.quicSession with buf := rest } }) ∨
        (l.tcpSession.buf = s :: rest ∧
          l' = { l with tcpSession := { l.tcpSession with buf := rest } }))) ∧
    (l.tcpSession.buf = [] → ∀ s rest, l.quicSession.buf = s :: rest →
      ∃ w', (l.Accept env (fuel + 1)).run w =
        (Outcome.ret (some ((s, none),
          { l with quicSession := { l.quicSession with buf := rest } })), w')) := by
  obtain ⟨hq, ht⟩ := hdual
  obtain ⟨ho1, ho2, ho3, ho4⟩ := hopen
  obtain ⟨he1, he2⟩ := hnoerr
  obtain ⟨r, w', hrun, hnil, hcons, htr, hcalls, -⟩ := pickCase_run l.readyCases w
  have hready : l.readyCases =
      (if l.quicSession.buf = [] then [] else [DualCase.quicSession]) ++
      (if l.tcpSession.buf = [] then [] else [DualCase.tcpSession]) := by
    simp [Listener.readyCases, Chan.recvReady, ho1, ho2, ho3, ho4, he1, he2]
  simp only [Listener.Accept, hq, ht, ne_eq, not_false_eq_true, and_self, if_true,
    Listener.acceptDualMode, run_bind, hrun]
  cases hqb : l.quicSession.buf with
  | nil =>
    cases htb : l.tcpSession.buf with
    | nil => simp [hqb, htb] at havail
    | cons s rest =>
      simp only [hqb, htb, if_true, if_false, List.nil_append, reduceCtorEq] at hready
      obtain ⟨k, hk, rfl⟩ := hcons (by simp [hready])
      simp only [hready, List.mem_singleton] at hk
      subst hk
      refine ⟨⟨s, rest, _, w', ?_, htr, hcalls, Or.inr ⟨rfl, rfl⟩⟩, ?_⟩
      · simp [Chan.recv, htb]
      · intro h; cases h
  | cons s rest =>
    cases htb : l.tcpSession.buf with
    | nil =>
      simp only [hqb, htb, if_true, if_false, List.append_nil, reduceCtorEq] at hready
      obtain ⟨k, hk, rfl⟩ := hcons (by simp [hready])
      simp only [hready, List.mem_singleton] at hk
      subst hk
      refine ⟨⟨s, rest, _, w', ?_, htr, hcalls, Or.inl ⟨rfl, rfl⟩⟩, ?_⟩
      · simp [Chan.recv, hqb]
      · intro _ s' rest' h
        cases h
        exact ⟨w', by simp [Chan.recv, hqb]⟩
    | cons s2 rest2 =>
      simp only [hqb, htb, if_false, reduceCtorEq] at hready
      obtain ⟨k, hk, rfl⟩ := hcons (by simp [hready])
      simp only [hready, List.cons_append, List.nil_append, List.mem_cons, List.mem_singleton,
        List.not_mem_nil, or_false] at hk
      refine ⟨?_, ?_⟩
      · rcases hk with hk | hk <;> subst hk
        · exact ⟨s, rest, _, w', by simp [Chan.recv, hqb], htr, hcalls, Or.inl ⟨rfl, rfl⟩⟩
        · exact ⟨s2, rest2, _, w', by simp [Chan.recv, htb], htr, hcalls, Or.inr ⟨rfl, rfl⟩⟩
      · intro h; cases h

/-- An instance at the sample listener with one
session on the Q-session buffer and nothing from the TCP loop. -/
theorem accept_dual_returns_buffered_session_witness :
    (listenerWithQuicSession.quicListener ≠ none ∧
      listenerWithQuicSession.tcpListener ≠ none) ∧
    (listenerWithQuicSession.quicSession.closed = false ∧
      listenerWithQuicSession.tcpSession.closed = false ∧
      listenerWithQuicSession.quicErr.closed = false ∧
      listenerWithQuicSession.tcpErr.closed = false) ∧
    (listenerWithQuicSession.quicErr.buf = [] ∧ listenerWithQuicSession.tcpErr.buf = []) ∧
    (listenerWithQuicSession.quicSession.buf ≠ [] ∨
      listenerWithQuicSession.tcpSession.buf ≠ []) ∧
    (∃ w', (listenerWithQuicSession.Accept (sampleEnv true true) (0 + 1)).run World.init =
      (Outcome.ret (some ((some sampleQuicSession, none),
        { listenerWithQuicSession with
          quicSession := { listenerWithQuicSession.quicSession with buf := [] } })), w')) :=
  ⟨by decide, by decide, by decide, by decide,
    (accept_dual_returns_buffered_session (sampleEnv true true) 0 listenerWithQuicSession
      World.init (by decide) (by decide) (by decide) (by decide)).2 rfl _ _ rfl⟩

/-- Claim C10. In a dual-transport listener, when the `select` of `Accept` takes the
Q-error case and receives a non-nil error, `Accept` then runs the TCP listener's `Accept`
once and its outcome is the outcome of that call, a session or an error, not the received
QUIC error; the only adapter call it adds is that one. In the same way the T-error case
with a non-nil error leads to one call of the QUIC listener's `Accept`, whose outcome is
returned. -/
theorem accept_dual_error_falls_back_once (env : Env) (fuel : Nat) (l : Listener)
    (w w1 : World) (ql : quic.Listener) (tl : tcp.Listener)
    (hq : l.quicListener = some ql) (ht : l.tcpListener = some tl) :
    (∀ e rest,
      (pickCase l.readyCases).run w = (Outcome.ret (some DualCase.quicErr), w1) →
      l.quicErr.buf = some e :: rest →
      (l.Accept env (fuel + 1)).run w =
        (Outcome.map
          (fun r => some (r, { l with quicErr := { l.quicErr with buf := rest } }))
          ((tl.Accept env).run w1).1, ((tl.Accept env).run w1).2) ∧
      ((l.Accept env (fuel + 1)).run w).2.calls = w.calls ++ [Method.tcpAccept]) ∧
    (∀ e rest,
      (pickCase l.readyCases).run w = (Outcome.ret (some DualCase.tcpErr), w1) →
      l.tcpErr.buf = some e :: rest →
      (l.Accept env (fuel + 1)).run w =
        (Outcome.map
          (fun r => some (r.1, { l with tcpErr := { l.tcpErr with buf := rest },
                                        quicListener := some r.2 }))
          ((ql.Accept).run w1).1, ((ql.Accept).run w1).2) ∧
      ((l.Accept env (fuel + 1)).run w).2.calls = w.calls ++ [Method.quicAccept]) := by
  obtain ⟨r, w', hrun, -, -, -, hcalls, -⟩ := pickCase_run l.readyCases w
  constructor
  · intro e rest hpick hbuf
    rw [hpick] at hrun
    cases hrun
    have hc := tcp_accept_calls env tl w1
    revert hc
    simp only [Listener.Accept, hq, ht, ne_eq, not_false_eq_true, and_self, if_true,
      Listener.acceptDualMode, run_bind, hpick, Chan.recv, hbuf, Listener.tcpAccept,
      reduceCtorEq]
    generalize (tl.Accept env).run w1 = ra
    rcases ra with ⟨o, w2⟩
    cases o <;> simp [Outcome.map, hcalls]
  · intro e rest hpick hbuf
    rw [hpick] at hrun
    cases hrun
    have hc := quic_accept_calls ql w1
    revert hc
    simp only [Listener.Accept, hq, ht, ne_eq, not_false_eq_true, and_self, if_true,
      Listener.acceptDualMode, run_bind, hpick, Chan.recv, hbuf, Listener.quicAccept,
      reduceCtorEq]
    generalize (ql.Accept).run w1 = ra
    rcases ra with ⟨o, w2⟩
    cases o <;> simp [Outcome.map, hcalls]

/-- An instance at the sample listener with a QUIC
error on the Q-error buffer and a TCP peer waiting: the TCP session is returned. -/
theorem accept_dual_error_falls_back_once_witness :
    listenerWithQuicErr.quicListener = some
      { ln := { id := 10, addr := ":9090" }, localAddr := ":9090",
        acceptChan := Chan.make 10, errChan := Chan.make 1 } ∧
    listenerWithQuicErr.tcpListener = some
      { ln := { id := 20, addr := ":9090" },
        tlsConfig := some { ident := 0, certificates := [7], insecureSkipVerify := false,
                            nextProtos := [cert.ALPN] },
        localAddr := ":9090" } ∧
    (pickCase listenerWithQuicErr.readyCases).run World.init =
      (Outcome.ret (some DualCase.quicErr), World.init) ∧
    listenerWithQuicErr.quicErr.buf = some "quic: server closed" :: [] ∧
    (listenerWithQuicErr.Accept (sampleEnv true true) (0 + 1)).run World.init =
      (Outcome.ret (some
        ((some (MuxSession.tcp (some
            { session := some { id := 3 },
              tlsConn := some { conn := { id := 3, localAddr := "10.0.0.2:9090" } },
              localAddr := some ":9090" })), none),
          sampleDualListener)),
        { trace := [Event.netLnAccept 20, Event.tlsHandshake 3, Event.yamuxServer 3],
          calls := [Method.tcpAccept], spawned := [], picks := [] }) ∧
    ((listenerWithQuicErr.Accept (sampleEnv true true) (0 + 1)).run World.init).2.calls =
      World.init.calls ++ [Method.tcpAccept] :=
  ⟨rfl, rfl, rfl, rfl,
    ((accept_dual_error_falls_back_once (sampleEnv true true) 0 listenerWithQuicErr
      World.init World.init _ _ rfl rfl).1 "quic: server closed" [] rfl rfl).1,
    ((accept_dual_error_falls_back_once (sampleEnv true true) 0 listenerWithQuicErr
      World.init World.init _ _ rfl rfl).1 "quic: server closed" [] rfl rfl).2⟩

end Accept

section Adapters

open dialer

/-- Claim C15. A listener that `NewListener` returns with a nil error, in any mode and
for any outcome of the binds, holds at least one transport listener; `Addr` returns
normally: the address of the QUIC listener when that one is bound, and otherwise the
address of the TCP listener, which is then bound. -/
theorem newListener_addr_defined (env : Env) (addr : String)
    (config : Option transport.Config) (w w' : World) (l : Listener)
    (h : (NewListener env addr config).run w = (Outcome.ret (some l, none), w')) :
    (l.quicListener ≠ none ∨ l.tcpListener ≠ none) ∧
    (∀ q w2, l.quicListener = some q → l.Addr.run w2 = (Outcome.ret q.Addr, w2)) ∧
    (l.quicListener = none →
      ∃ t, l.tcpListener = some t ∧ ∀ w2, l.Addr.run w2 = (Outcome.ret t.Addr, w2)) := by
  obtain ⟨-, -, -, -, -, -, hsome, -⟩ := newListener_fresh env addr config w w' l h
  refine ⟨hsome, ?_, ?_⟩
  · intro q w2 hq
    simp [Listener.Addr, hq]
  · intro hq
    rcases hsome with hsome | hsome
    · exact absurd hq hsome
    · cases ht : l.tcpListener with
      | none => exact absurd ht hsome
      | some t => exact ⟨t, rfl, fun w2 => by simp [Listener.Addr, hq, ht]⟩

/-- An instance in mode "tcp": the listener holds the TCP listener only and `Addr` is its
address ":9090". -/
theorem newListener_addr_defined_witness :
    (NewListener (sampleEnv true true) ":9090"
        (some (transport.Config.mk ModeTCP none))).run World.init =
      (Outcome.ret (some tcpOnlyListener, none),
        { trace := [Event.createCertificate, Event.netListen ":9090"],
          calls := [Method.tcpListen], spawned := [Task.serveTCP], picks := [] }) ∧
    (tcpOnlyListener.quicListener ≠ none ∨ tcpOnlyListener.tcpListener ≠ none) ∧
    (∃ t, tcpOnlyListener.tcpListener = some t ∧
      ∀ w2, tcpOnlyListener.Addr.run w2 = (Outcome.ret t.Addr, w2)) :=
  ⟨rfl,
    (newListener_addr_defined (sampleEnv true true) ":9090"
      (some (transport.Config.mk ModeTCP none)) World.init _ tcpOnlyListener rfl).1,
    (newListener_addr_defined (sampleEnv true true) ":9090"
      (some (transport.Config.mk ModeTCP none)) World.init _ tcpOnlyListener rfl).2.2 rfl⟩

/-- Claim C16. `Protocol` does not look at its receiver: it is "QUIC" for every
`quic.Session` and "TCP" for every `tcp.Session`, a nil pointer and a session built from
nil arguments included. So a session that `Dial` returns in mode "quic" reports "QUIC" and
one it returns in mode "tcp" reports "TCP". -/
theorem protocol_constant_per_adapter (env : Env) (d : Dialer) (target : String)
    (w w' : World) (s : MuxSession)
    (hmode : d.config.Mode = ModeQUIC ∨ d.config.Mode = ModeTCP)
    (hdial : (d.Dial env target).run w = (Outcome.ret (some s, none), w')) :
    (∀ q : Option quic.Session, quic.Session.Protocol q = "QUIC") ∧
    (∀ t : Option tcp.Session, tcp.Session.Protocol t = "TCP") ∧
    quic.Session.Protocol (some (quic.NewSession none none none)) = "QUIC" ∧
    tcp.Session.Protocol (some (tcp.NewSession none none none)) = "TCP" ∧
    s.Protocol = (if d.config.Mode = ModeQUIC then "QUIC" else "TCP") := by
  refine ⟨fun _ => rfl, fun _ => rfl, rfl, rfl, ?_⟩
  rcases hmode with hmode | hmode
  · simp only [Dialer.Dial, hmode, if_true, Dialer.dialQUIC] at hdial
    obtain ⟨p, rfl⟩ := quic_dial_session env d.quicDialer target w w' s none hdial
    simp [hmode, transport.MuxSession.Protocol, quic.Session.Protocol]
  · simp only [Dialer.Dial, hmode, modeTCP_ne_modeQUIC, if_true, if_false,
      Dialer.dialTCP] at hdial
    obtain ⟨p, rfl⟩ := tcp_dial_session env d.tcpDialer target w w' s none hdial
    simp [hmode, modeTCP_ne_modeQUIC, transport.MuxSession.Protocol, tcp.Session.Protocol]

/-- An instance: the session a "tcp" dialer gets from a reachable TCP side reports
"TCP". -/
theorem protocol_constant_per_adapter_witness :
    ((sampleDialer ModeTCP).config.Mode = ModeQUIC ∨
      (sampleDialer ModeTCP).config.Mode = ModeTCP) ∧
    (((sampleDialer ModeTCP).Dial (sampleEnv true true) "10.0.0.2:9090").run World.init).1 =
      Outcome.ret (some (MuxSession.tcp (some
        { session := some { id := 2 },
          tlsConn := some { conn := { id := 2, localAddr := "10.0.0.1:50000" } },
          localAddr := some "10.0.0.1:50000" })), none) ∧
    (MuxSession.tcp (some
        { session := some { id := 2 },
          tlsConn := some { conn := { id := 2, localAddr := "10.0.0.1:50000" } },
          localAddr := some "10.0.0.1:50000" })).Protocol = "TCP" :=
  ⟨Or.inr rfl, rfl,
    (protocol_constant_per_adapter (sampleEnv true true) (sampleDialer ModeTCP)
      "10.0.0.2:9090" World.init _ _ (Or.inr rfl) rfl).2.2.2.2⟩

/-- Claim C17. For a non-nil configuration `c`, `EnsureClientTLSConfig` returns `c` and
`EnsureServerTLSConfig` returns `c` with a nil error, both without any library call.
`EnsureServerTLSConfig` returns a non-nil error only when its argument is nil and
`cert.GenerateSelfSignedConfig` returns that error. `EnsureClientTLSConfig` always returns
a non-nil configuration. -/
theorem ensure_tls_config (env : Env) :
    (∀ c w, (tls.EnsureClientTLSConfig env (some c)).run w = (Outcome.ret (some c), w)) ∧
    (∀ c w, (tls.EnsureServerTLSConfig env (some c)).run w = (Outcome.ret (some c, none), w)) ∧
    (∀ config w r w', (tls.EnsureServerTLSConfig env config).run w = (Outcome.ret r, w') →
      r.2 ≠ none →
      config = none ∧ r.1 = none ∧
        ((cert.GenerateSelfSignedConfig env).run w).1 = Outcome.ret (none, r.2)) ∧
    (∀ config w, ∃ c w', (tls.EnsureClientTLSConfig env config).run w =
      (Outcome.ret (some c), w')) := by
  refine ⟨fun _ _ => rfl, fun _ _ => rfl, ?_, ?_⟩
  · intro config w r w' h hr
    cases config with
    | some c =>
      simp [tls.EnsureServerTLSConfig] at h
      rcases h with ⟨rfl, -⟩
      simp at hr
    | none =>
      simp only [tls.EnsureServerTLSConfig, cert.GenerateSelfSignedConfig, run_bind,
        run_libcall] at h ⊢
      revert h
      cases env.createCertificate w.trace with
      | error e => simp; rintro rfl _; simp
      | ok c => simp; rintro rfl _; simp at hr
  · intro config w
    cases config with
    | some c => exact ⟨c, w, rfl⟩
    | none =>
      simp only [tls.EnsureClientTLSConfig, cert.GenerateClientTLSConfig,
        cert.GenerateSelfSignedConfig, run_bind, run_libcall]
      cases env.createCertificate w.trace <;> simp

/-- Claim C18, the code at failing inputs. The listener `NewListener` returns in mode "tcp"
holds no QUIC listener. `Close` of a listener with only the TCP listener bound panics in
`CloseAll` at the nil QUIC listener, whose `Close` is called, before the TCP listener is
closed: no library call is made. `Close` of a listener with only the QUIC listener bound
closes that listener and then panics at the nil TCP listener. -/
theorem close_single_transport_panics :
    ((NewListener (sampleEnv true true) ":9090"
        (some { Mode := ModeTCP, TLSConfig := none })).run World.init).1 =
      Outcome.ret (some tcpOnlyListener, none) ∧
    (tcpOnlyListener.Close (sampleEnv true true)).run World.init =
      (Outcome.panic "invalid memory address or nil pointer dereference",
        { World.init with calls := [Method.quicClose] }) ∧
    (∀ (env : Env) (l : Listener) (t : tcp.Listener) (w : World),
      (Listener.Close env { l with quicListener := none, tcpListener := some t }).run w =
        (Outcome.panic "invalid memory address or nil pointer dereference",
          { w with calls := w.calls ++ [Method.quicClose] })) ∧
    (∀ (env : Env) (l : Listener) (q : quic.Listener) (w : World),
      (Listener.Close env { l with quicListener := some q, tcpListener := none }).run w =
        (Outcome.panic "invalid memory address or nil pointer dereference",
          { w with trace := w.trace ++ [Event.quicLnClose q.ln.id],
                   calls := w.calls ++ [Method.quicClose, Method.tcpClose] })) := by
  refine ⟨by decide, by decide, ?_, ?_⟩
  · intro env l t w
    simp [Listener.Close, Listener.closeListeners, utils.CloseAll, utils.CloseAll.loop,
      ListenerCloser.Close]
  · intro env l q w
    simp [Listener.Close, Listener.closeListeners, utils.CloseAll, utils.CloseAll.loop,
      ListenerCloser.Close, quic.Listener.Close]
    cases env.quicLnClose w.trace q.ln.id <;> simp

end Adapters

section Runs

open dialer

/-- A listener is drained to itself. -/
theorem drainedTo_refl (l : Listener) : l.DrainedTo l :=
  ⟨rfl, rfl, rfl, rfl, List.suffix_refl _, rfl, List.suffix_refl _, rfl, List.suffix_refl _,
    rfl, List.suffix_refl _⟩

/-- Draining composes. -/
theorem drainedTo_trans {a b c : Listener} (h1 : a.DrainedTo b) (h2 : b.DrainedTo c) :
    a.DrainedTo c :=
  ⟨h2.wg.trans h1.wg, h2.closed.trans h1.closed, h2.tcpListener.trans h1.tcpListener,
    h2.quicSession_closed.trans h1.quicSession_closed,
    h2.quicSession_buf.trans h1.quicSession_buf,
    h2.quicErr_closed.trans h1.quicErr_closed, h2.quicErr_buf.trans h1.quicErr_buf,
    h2.tcpSession_closed.trans h1.tcpSession_closed, h2.tcpSession_buf.trans h1.tcpSession_buf,
    h2.tcpErr_closed.trans h1.tcpErr_closed, h2.tcpErr_buf.trans h1.tcpErr_buf⟩

/-- A receive does not change whether the channel is closed. -/
theorem recv_closed {α : Type} (z : α) (c : Chan α) : (c.recv z).2.closed = c.closed := by
  unfold Chan.recv
  cases c.buf <;> rfl

/-- A receive leaves an end of the buffer. -/
theorem recv_buf {α : Type} (z : α) (c : Chan α) : (c.recv z).2.buf <:+ c.buf := by
  unfold Chan.recv
  cases h : c.buf with
  | nil => simp [h]
  | cons v rest => simp

/-- The fallback call `l.quicListener.Accept()` changes none of the four buffers. -/
theorem quicAccept_drained (l l' : Listener) (w w' : World) (r : SessionResult)
    (h : l.quicAccept.run w = (Outcome.ret (r, l'), w')) : l.DrainedTo l' := by
  revert h
  unfold Listener.quicAccept
  cases hq : l.quicListener with
  | none => simp
  | some q =>
    obtain ⟨k, w1, hrun, -, -, -, -, -⟩ :=
      pickCase_run q.readyCases { w with calls := w.calls ++ [Method.quicAccept] }
    simp only [quic.Listener.Accept, run_bind, run_enter, hrun]
    rcases k with _ | _ | _ <;> simp
    · rintro - rfl -
      exact ⟨rfl, rfl, rfl, rfl, List.suffix_refl _, rfl, List.suffix_refl _, rfl,
        List.suffix_refl _, rfl, List.suffix_refl _⟩
    · rintro - rfl -
      exact ⟨rfl, rfl, rfl, rfl, List.suffix_refl _, rfl, List.suffix_refl _, rfl,
        List.suffix_refl _, rfl, List.suffix_refl _⟩

/-- The call `l.tcpListener.Accept()` leaves the listener as it was. -/
theorem tcpAccept_same (env : Env) (l l' : Listener) (w w' : World) (r : SessionResult)
    (h : (l.tcpAccept env).run w = (Outcome.ret (r, l'), w')) : l' = l := by
  revert h
  unfold Listener.tcpAccept
  cases l.tcpListener with
  | none => simp
  | some t =>
    simp only [run_bind]
    generalize (t.Accept env).run w = ra
    rcases ra with ⟨o, w2⟩
    cases o <;> simp
    rintro - rfl -
    rfl

/-- A call of `acceptDualMode` that returns has only received from the four buffers. -/
theorem acceptDualMode_drained (env : Env) (fuel : Nat) :
    ∀ (l l' : Listener) (w w' : World) (r : SessionResult),
      (l.acceptDualMode env fuel).run w = (Outcome.ret (some (r, l')), w') →
      l.DrainedTo l' := by
  induction fuel with
  | zero =>
    intro l l' w w' r h
    simp [Listener.acceptDualMode] at h
  | succ n ih =>
    intro l l' w w' r
    obtain ⟨k, w1, hrun, -, -, -, -, -⟩ := pickCase_run l.readyCases w
    simp only [Listener.acceptDualMode, run_bind, hrun]
    have hqs : l.DrainedTo { l with quicSession := (l.quicSession.recv none).2 } :=
      { drainedTo_refl l with
        quicSession_closed := recv_closed _ _, quicSession_buf := recv_buf _ _ }
    have hts : l.DrainedTo { l with tcpSession := (l.tcpSession.recv none).2 } :=
      { drainedTo_refl l with
        tcpSession_closed := recv_closed _ _, tcpSession_buf := recv_buf _ _ }
    have hqe : l.DrainedTo { l with quicErr := (l.quicErr.recv none).2 } :=
      { drainedTo_refl l with
        quicErr_closed := recv_closed _ _, quicErr_buf := recv_buf _ _ }
    have hte : l.DrainedTo { l with tcpErr := (l.tcpErr.recv none).2 } :=
      { drainedTo_refl l with
        tcpErr_closed := recv_closed _ _, tcpErr_buf := recv_buf _ _ }
    rcases k with _ | _ | _ | _ | _
    · simp
    · simp only []
      split
      · simp only [run_bind]
        intro h
        generalize hra : (Listener.tcpAccept env _).run w1 = ra at h
        rcases ra with ⟨o, w2⟩
        rcases o with ⟨r2, l2⟩ | _ | _ <;> simp at h
        obtain ⟨⟨rfl, rfl⟩, rfl⟩ := h
        have := tcpAccept_same env _ _ _ _ _ hra
        rw [this]
        exact hqs
      · simp
        rintro - rfl -
        exact hqs
    · simp only []
      split
      · simp only [run_bind]
        intro h
        generalize hra : (Listener.quicAccept _).run w1 = ra at h
        rcases ra with ⟨o, w2⟩
        rcases o with ⟨r2, l2⟩ | _ | _ <;> simp at h
        obtain ⟨⟨rfl, rfl⟩, rfl⟩ := h
        exact drainedTo_trans hts (quicAccept_drained _ _ _ _ _ hra)
      · simp
        rintro - rfl -
        exact hts
    · simp only []
      split
      · simp only [run_bind]
        intro h
        generalize hra : (Listener.tcpAccept env _).run w1 = ra at h
        rcases ra with ⟨o, w2⟩
        rcases o with ⟨r2, l2⟩ | _ | _ <;> simp at h
        obtain ⟨⟨rfl, rfl⟩, rfl⟩ := h
        have := tcpAccept_same env _ _ _ _ _ hra
        rw [this]
        exact hqe
      · intro h
        exact drainedTo_trans hqe (ih _ _ _ _ _ h)
    · simp only []
      split
      · simp only [run_bind]
        intro h
        generalize hra : (Listener.quicAccept _).run w1 = ra at h
        rcases ra with ⟨o, w2⟩
        rcases o with ⟨r2, l2⟩ | _ | _ <;> simp at h
        obtain ⟨⟨rfl, rfl⟩, rfl⟩ := h
        exact drainedTo_trans hte (quicAccept_drained _ _ _ _ _ hra)
      · intro h
        exact drainedTo_trans hte (ih _ _ _ _ _ h)

/-- A call of `Accept` that returns has only received from the four buffers. -/
theorem accept_drained (env : Env) (fuel : Nat) (l l' : Listener) (w w' : World)
    (r : SessionResult)
    (h : (l.Accept env fuel).run w = (Outcome.ret (some (r, l')), w')) : l.DrainedTo l' := by
  revert h
  unfold Listener.Accept
  split_ifs
  · exact acceptDualMode_drained env fuel l l' w w' r
  · simp only [run_bind]
    intro h
    generalize hra : l.quicAccept.run w = ra at h
    rcases ra with ⟨o, w2⟩
    rcases o with ⟨r2, l2⟩ | _ | _ <;> simp at h
    obtain ⟨⟨rfl, rfl⟩, rfl⟩ := h
    exact quicAccept_drained _ _ _ _ _ hra
  · simp only [run_bind]
    intro h
    generalize hra : (l.tcpAccept env).run w = ra at h
    rcases ra with ⟨o, w2⟩
    rcases o with ⟨r2, l2⟩ | _ | _ <;> simp at h
    obtain ⟨⟨rfl, rfl⟩, rfl⟩ := h
    rw [tcpAccept_same env _ _ _ _ _ hra]
    exact drainedTo_refl l

/-- A list with a non-empty end is not empty. -/
theorem ne_nil_of_suffix {α : Type} {a b : List α} (h : a <:+ b) (ha : a ≠ []) : b ≠ [] := by
  rintro rfl
  exact ha (List.suffix_nil.mp h)

/-- The invariant survives a change of the listener by receives only. -/
theorem inv_of_drained (s s' : System) (hs : s.Inv) (hd : s.l.DrainedTo s'.l)
    (hq : s'.serveQuic.running = s.serveQuic.running)
    (hq' : s.serveQuic = LoopPc.done → s'.serveQuic = LoopPc.done)
    (ht : s'.serveTCP.running = s.serveTCP.running)
    (ht' : s.serveTCP = LoopPc.done → s'.serveTCP = LoopPc.done)
    (hc : s'.closePc = s.closePc) (hr : s'.closeResults = s.closeResults) : s'.Inv := by
  obtain ⟨h1, h2, h3, h4, h5, h6⟩ := hs
  obtain ⟨d1, d2, d3, d4, d5, d6, d7, d8, d9, d10, d11⟩ := hd
  refine ⟨?_, ?_, ?_, ?_, ?_, ?_⟩
  · rw [d1, hq, ht]; exact h1
  · intro k err hk
    rw [hc] at hk
    rw [d1, d4, d6, d8]
    exact h2 k err hk
  · rw [d1, d4, d6, d8, d10]; exact h3
  · rw [hr, d1, d4, d6, d8, d10]; exact h4
  · intro hne
    exact hq' (h5 (ne_nil_of_suffix d7 hne))
  · intro hne
    exact ht' (h6 (ne_nil_of_suffix d11 hne))

/-- A send that proceeds found the channel open, leaves it open and appends the value. -/
theorem send_sent {α : Type} (v : α) (c c' : Chan α) (h : c.send v = SendResult.sent c') :
    c.closed = false ∧ c'.closed = false ∧ c'.buf = c.buf ++ [v] := by
  unfold Chan.send at h
  split_ifs at h with h1 h2
  · simp at h
    subst h
    simp at h1
    simp [h1]

/-- A step of `serveQuic` keeps the invariant. -/
theorem step_serveQuic_inv (env : Env) (fuel : Nat) (s s' : System) (hs : s.Inv)
    (h : s.step env fuel Actor.serveQuic = some s') : s'.Inv := by
  have hs0 := hs
  obtain ⟨h1, h2, h3, h4, h5, h6⟩ := hs
  unfold System.step at h
  split_ifs at h with hc
  simp only [System.move, Listener.serveQuicStep] at h
  cases hpc : s.serveQuic with
  | idle => simp [hpc] at h
  | done => simp [hpc] at h
  | top =>
    simp only [hpc] at h
    split_ifs at h with hcl
    · simp at h
      subst h
      simp only [hpc, LoopPc.running] at h1
      refine ⟨?_, ?_, ?_, ?_, ?_, ?_⟩
      all_goals simp_all [LoopPc.running]
    · simp at h
      subst h
      simp only [hpc, LoopPc.running] at h1
      refine ⟨?_, ?_, ?_, ?_, ?_, ?_⟩
      all_goals simp_all [LoopPc.running]
  | inAccept =>
    simp only [hpc] at h
    generalize hra : s.l.quicAccept.run s.w = ra at h
    rcases ra with ⟨o, w2⟩
    rcases o with ⟨r2, l2⟩ | _ | _
    · have hd := quicAccept_drained _ _ _ _ _ hra
      simp only [] at h
      split_ifs at h
      · simp at h
        subst h
        exact inv_of_drained s _ hs0 hd (by simp [hpc, LoopPc.running]) (by simp [hpc]) rfl
          (fun h => h) rfl rfl
      · simp at h
        subst h
        exact inv_of_drained s _ hs0 hd (by simp [hpc, LoopPc.running]) (by simp [hpc]) rfl
          (fun h => h) rfl rfl
    · simp at h
      subst h
      refine ⟨?_, ?_, ?_, ?_, ?_, ?_⟩
      all_goals simp_all [LoopPc.running]
    · simp at h
  | sendSession v =>
    simp only [hpc] at h
    cases hsend : s.l.quicSession.send v with
    | sent c =>
      obtain ⟨hc1, hc2, hc3⟩ := send_sent _ _ _ hsend
      simp [hsend] at h
      subst h
      simp only [hpc, LoopPc.running] at h1
      refine ⟨?_, ?_, ?_, ?_, ?_, ?_⟩
      all_goals simp_all [LoopPc.running]
    | full => simp [hsend] at h
    | closed =>
      simp [hsend] at h
      subst h
      refine ⟨?_, ?_, ?_, ?_, ?_, ?_⟩
      all_goals simp_all [LoopPc.running]
  | sendErr e =>
    simp only [hpc] at h
    cases hsend : s.l.quicErr.send e with
    | sent c =>
      obtain ⟨hc1, hc2, hc3⟩ := send_sent _ _ _ hsend
      simp [hsend] at h
      subst h
      simp only [hpc, LoopPc.running] at h1
      refine ⟨?_, ?_, ?_, ?_, ?_, ?_⟩
      all_goals simp_all [LoopPc.running]
    | full => simp [hsend] at h
    | closed =>
      simp [hsend] at h
      subst h
      refine ⟨?_, ?_, ?_, ?_, ?_, ?_⟩
      all_goals simp_all [LoopPc.running]

/-- A step of `serveTCP` keeps the invariant. -/
theorem step_serveTCP_inv (env : Env) (fuel : Nat) (s s' : System) (hs : s.Inv)
    (h : s.step env fuel Actor.serveTCP = some s') : s'.Inv := by
  have hs0 := hs
  obtain ⟨h1, h2, h3, h4, h5, h6⟩ := hs
  unfold System.step at h
  split_ifs at h with hc
  simp only [System.move, Listener.serveTCPStep] at h
  cases hpc : s.serveTCP with
  | idle => simp [hpc] at h
  | done => simp [hpc] at h
  | top =>
    simp only [hpc] at h
    split_ifs at h with hcl
    · simp at h
      subst h
      simp only [hpc, LoopPc.running] at h1
      refine ⟨?_, ?_, ?_, ?_, ?_, ?_⟩
      all_goals simp_all [LoopPc.running]
    · simp at h
      subst h
      simp only [hpc, LoopPc.running] at h1
      refine ⟨?_, ?_, ?_, ?_, ?_, ?_⟩
      all_goals simp_all [LoopPc.running]
  | inAccept =>
    simp only [hpc] at h
    generalize hra : (s.l.tcpAccept env).run s.w = ra at h
    rcases ra with ⟨o, w2⟩
    rcases o with ⟨r2, l2⟩ | _ | _
    · have hd : s.l.DrainedTo l2 := by
        rw [tcpAccept_same env _ _ _ _ _ hra]
        exact drainedTo_refl _
      simp only [] at h
      split_ifs at h
      · simp at h
        subst h
        exact inv_of_drained s _ hs0 hd rfl (fun h => h) (by simp [hpc, LoopPc.running])
          (by simp [hpc]) rfl rfl
      · simp at h
        subst h
        exact inv_of_drained s _ hs0 hd rfl (fun h => h) (by simp [hpc, LoopPc.running])
          (by simp [hpc]) rfl rfl
    · simp at h
      subst h
      refine ⟨?_, ?_, ?_, ?_, ?_, ?_⟩
      all_goals simp_all [LoopPc.running]
    · simp at h
  | sendSession v =>
    simp only [hpc] at h
    cases hsend : s.l.tcpSession.send v with
    | sent c =>
      obtain ⟨hc1, hc2, hc3⟩ := send_sent _ _ _ hsend
      simp [hsend] at h
      subst h
      simp only [hpc, LoopPc.running] at h1
      refine ⟨?_, ?_, ?_, ?_, ?_, ?_⟩
      all_goals simp_all [LoopPc.running]
    | full => simp [hsend] at h
    | closed =>
      simp [hsend] at h
      subst h
      refine ⟨?_, ?_, ?_, ?_, ?_, ?_⟩
      all_goals simp_all [LoopPc.running]
  | sendErr e =>
    simp only [hpc] at h
    cases hsend : s.l.tcpErr.send e with
    | sent c =>
      obtain ⟨hc1, hc2, hc3⟩ := send_sent _ _ _ hsend
      simp [hsend] at h
      subst h
      simp only [hpc, LoopPc.running] at h1
      refine ⟨?_, ?_, ?_, ?_, ?_, ?_⟩
      all_goals simp_all [LoopPc.running]
    | full => simp [hsend] at h
    | closed =>
      simp [hsend] at h
      subst h
      refine ⟨?_, ?_, ?_, ?_, ?_, ?_⟩
      all_goals simp_all [LoopPc.running]

/-- A step of the accept loop of the QUIC adapter keeps the invariant. -/
theorem step_acceptLoop_inv (env : Env) (fuel : Nat) (s s' : System) (hs : s.Inv)
    (h : s.step env fuel Actor.acceptLoop = some s') : s'.Inv := by
  obtain ⟨h1, h2, h3, h4, h5, h6⟩ := hs
  unfold System.step at h
  split_ifs at h with hc
  simp only [System.move] at h
  cases hq : s.l.quicListener with
  | none => simp [hq] at h
  | some q =>
    simp only [hq] at h
    cases hst : q.acceptLoopStep env s.acceptLoop s.w with
    | blocked => simp [hst] at h
    | next x =>
      obtain ⟨pc, q', w'⟩ := x
      simp [hst] at h
      subst h
      exact ⟨h1, h2, h3, h4, h5, h6⟩
    | panic msg =>
      simp [hst] at h
      subst h
      exact ⟨h1, h2, h3, h4, h5, h6⟩

/-- A call of `Accept` keeps the invariant. -/
theorem step_accept_inv (env : Env) (fuel : Nat) (s s' : System) (hs : s.Inv)
    (h : s.step env fuel Actor.accept = some s') : s'.Inv := by
  have hs0 := hs
  obtain ⟨h1, h2, h3, h4, h5, h6⟩ := hs
  unfold System.step at h
  split_ifs at h with hc
  simp only [System.move] at h
  generalize hra : (s.l.Accept env fuel).run s.w = ra at h
  rcases ra with ⟨o, w2⟩
  rcases o with (_ | ⟨r2, l2⟩) | _ | _
  · simp at h
  · have hd := accept_drained _ _ _ _ _ _ _ hra
    simp at h
    subst h
    exact inv_of_drained s _ hs0 hd rfl (fun h => h) rfl (fun h => h) rfl rfl
  · simp at h
    subst h
    exact ⟨h1, h2, h3, h4, h5, h6⟩
  · simp at h

/-- A `close` that does not panic found the channel open and only sets the flag. -/
theorem close_some {α : Type} (c c' : Chan α) (h : c.close = some c') :
    c'.closed = true ∧ c'.buf = c.buf ∧ c.closed = false := by
  unfold Chan.close at h
  split_ifs at h with hcl
  simp at h
  subst h
  simpa using hcl

/-- The invariant depends only on the listener, the two loops and the call of `Close`. -/
theorem inv_congr (s s' : System) (hs : s.Inv) (hl : s'.l = s.l)
    (hq : s'.serveQuic = s.serveQuic) (ht : s'.serveTCP = s.serveTCP)
    (hc : s'.closePc = s.closePc) (hr : s'.closeResults = s.closeResults) : s'.Inv := by
  obtain ⟨h1, h2, h3, h4, h5, h6⟩ := hs
  refine ⟨?_, ?_, ?_, ?_, ?_, ?_⟩
  · rw [hl, hq, ht]; exact h1
  · rw [hl, hc]; exact h2
  · rw [hl]; exact h3
  · rw [hl, hr]; exact h4
  · rw [hl, hq]; exact h5
  · rw [hl, ht]; exact h6

/-- A step of `Close` keeps the invariant. -/
theorem step_close_inv (env : Env) (fuel : Nat) (s s' : System) (hs : s.Inv)
    (h : s.step env fuel Actor.close = some s') : s'.Inv := by
  have hs0 := hs
  obtain ⟨h1, h2, h3, h4, h5, h6⟩ := hs
  unfold System.step at h
  split_ifs at h with hc
  simp only [System.move] at h
  cases hpc : s.closePc with
  | idle =>
    simp [hpc] at h
    subst h
    refine ⟨?_, ?_, ?_, ?_, ?_, ?_⟩
    all_goals simp_all
  | closeAll =>
    simp only [hpc] at h
    generalize (s.l.closeListeners env).run s.w = ra at h
    rcases ra with ⟨o, w2⟩
    rcases o with err | _ | _
    · simp at h
      subst h
      refine ⟨?_, ?_, ?_, ?_, ?_, ?_⟩
      all_goals simp_all
    · simp at h
      subst h
      refine ⟨?_, ?_, ?_, ?_, ?_, ?_⟩
      all_goals simp_all
    · simp at h
  | wait err =>
    simp only [hpc] at h
    split_ifs at h with hwg
    simp only [Option.some.injEq] at h
    subst h
    refine ⟨h1, ?_, h3, h4, h5, h6⟩
    intro k e hk
    simp only [ClosePc.closeChan.injEq] at hk
    obtain ⟨rfl, -⟩ := hk
    exact ⟨hwg, by simp, by simp, by simp⟩
  | closeChan k err =>
    obtain ⟨hw, hk0, hk1, hk2⟩ := h2 k err hpc
    simp only [hpc] at h
    cases hcb : s.l.closeBuffer k with
    | none =>
      simp [hcb] at h
      subst h
      exact inv_congr s _ hs0 rfl rfl rfl hpc.symm rfl
    | some l' =>
      simp only [hcb] at h
      have hwg' : l'.wg = 0 ∧ l'.quicErr.buf = s.l.quicErr.buf ∧
          l'.tcpErr.buf = s.l.tcpErr.buf ∧
          (s.l.quicSession.closed = true → l'.quicSession.closed = true) ∧
          (s.l.quicErr.closed = true → l'.quicErr.closed = true) ∧
          (s.l.tcpSession.closed = true → l'.tcpSession.closed = true) ∧
          (k = 0 → l'.quicSession.closed = true) ∧ (k = 1 → l'.quicErr.closed = true) ∧
          (k = 2 → l'.tcpSession.closed = true) ∧ (3 ≤ k → l'.tcpErr.closed = true) ∧
          ¬ (s.l.quicSession.closed = true ∧ s.l.quicErr.closed = true ∧
            s.l.tcpSession.closed = true ∧ s.l.tcpErr.closed = true) := by
        match k, hcb with
        | 0, hcb =>
          simp only [Listener.closeBuffer, Option.map_eq_some'] at hcb
          obtain ⟨c, hcl, rfl⟩ := hcb
          obtain ⟨hx, hy, hz⟩ := close_some _ _ hcl
          simp [hw, hx, hz]
        | 1, hcb =>
          simp only [Listener.closeBuffer, Option.map_eq_some'] at hcb
          obtain ⟨c, hcl, rfl⟩ := hcb
          obtain ⟨hx, hy, hz⟩ := close_some _ _ hcl
          simp [hw, hx, hy, hz]
        | 2, hcb =>
          simp only [Listener.closeBuffer, Option.map_eq_some'] at hcb
          obtain ⟨c, hcl, rfl⟩ := hcb
          obtain ⟨hx, hy, hz⟩ := close_some _ _ hcl
          simp [hw, hx, hz]
        | n + 3, hcb =>
          simp only [Listener.closeBuffer, Option.map_eq_some'] at hcb
          obtain ⟨c, hcl, rfl⟩ := hcb
          obtain ⟨hx, hy, hz⟩ := close_some _ _ hcl
          simp [hw, hx, hy, hz]
      obtain ⟨w0, wb1, wb2, p0, p1, p2, q0, q1, q2, q3, hnot⟩ := hwg'
      have hrun : s.serveQuic.running = false ∧ s.serveTCP.running = false := by
        rw [hw] at h1
        constructor
        · cases hr : s.serveQuic.running
          · rfl
          · rw [hr] at h1
            simp only [if_true] at h1
            exact absurd h1 (by omega)
        · cases hr : s.serveTCP.running
          · rfl
          · rw [hr] at h1
            simp only [if_true] at h1
            exact absurd h1 (by omega)
      split_ifs at h with hk
      · simp only [Option.some.injEq] at h
        subst h
        refine ⟨?_, ?_, ?_, ?_, ?_, ?_⟩
        · simp [w0, hrun.1, hrun.2]
        · intro k' e hk'
          simp only [ClosePc.closeChan.injEq] at hk'
          obtain ⟨rfl, -⟩ := hk'
          refine ⟨w0, fun h0 => ?_, fun h1' => ?_, fun h2' => ?_⟩
          · rcases Nat.eq_zero_or_pos k with hz | hz
            · exact q0 hz
            · exact p0 (hk0 hz)
          · rcases Nat.lt_or_ge 1 k with hz | hz
            · exact p1 (hk1 hz)
            · exact q1 (by omega)
          · rcases Nat.lt_or_ge 2 k with hz | hz
            · exact p2 (hk2 hz)
            · exact q2 (by omega)
        · intro _; exact w0
        · intro hne
          obtain ⟨a1, a2, a3, a4, -⟩ := h4 hne
          exact absurd ⟨a1, a2, a3, a4⟩ hnot
        · intro hne
          rw [wb1] at hne
          exact h5 hne
        · intro hne
          rw [wb2] at hne
          exact h6 hne
      · simp only [Option.some.injEq] at h
        subst h
        have hk3 : 3 ≤ k := by omega
        refine ⟨?_, ?_, ?_, ?_, ?_, ?_⟩
        · simp [w0, hrun.1, hrun.2]
        · intro k' e hk'
          simp at hk'
        · intro _; exact w0
        · intro _
          exact ⟨p0 (hk0 (by omega)), p1 (hk1 (by omega)), p2 (hk2 (by omega)), q3 hk3, w0⟩
        · intro hne
          rw [wb1] at hne
          exact h5 hne
        · intro hne
          rw [wb2] at hne
          exact h6 hne

/-- Every step keeps the invariant. -/
theorem step_inv (env : Env) (fuel : Nat) (a : Actor) (s s' : System) (hs : s.Inv)
    (h : s.step env fuel a = some s') : s'.Inv := by
  cases a
  · exact step_serveQuic_inv env fuel s s' hs h
  · exact step_serveTCP_inv env fuel s s' hs h
  · exact step_acceptLoop_inv env fuel s s' hs h
  · exact step_close_inv env fuel s s' hs h
  · exact step_accept_inv env fuel s s' hs h

/-- Every run keeps the invariant. -/
theorem exec_inv (env : Env) (fuel : Nat) :
    ∀ (sched : List Actor) (s s' : System), s.Inv →
      System.exec env fuel sched s = some s' → s'.Inv := by
  intro sched
  induction sched with
  | nil =>
    intro s s' hs h
    simp only [System.exec, Option.some.injEq] at h
    subst h
    exact hs
  | cons a rest ih =>
    intro s s' hs h
    simp only [System.exec] at h
    cases hst : s.step env fuel a with
    | none => simp [hst] at h
    | some s1 =>
      simp only [hst] at h
      exact ih s1 s' (step_inv env fuel a s s1 hs hst) h

/-- The invariant holds when `NewListener` returns. -/
theorem start_inv (env : Env) (addr : String) (config : Option transport.Config)
    (w0 w : World) (l : Listener)
    (h : (NewListener env addr config).run w0 = (Outcome.ret (some l, none), w)) :
    (System.start l w).Inv := by
  obtain ⟨h1, h2, h3, h4, h5, h6, h7, h8⟩ := newListener_fresh env addr config w0 w l h
  refine ⟨?_, ?_, ?_, ?_, ?_, ?_⟩
  · simp only [System.start]
    rw [h6]
    by_cases hq : l.quicListener = none <;> by_cases ht : l.tcpListener = none <;>
      simp [hq, ht, LoopPc.running]
  · intro k err hk
    simp [System.start] at hk
  · simp [System.start, h1, h2, h3, h4, Chan.make]
  · simp [System.start]
  · simp [System.start, h2, Chan.make]
  · simp [System.start, h4, Chan.make]

/-- The invariant holds in every state of a run of a listener returned by `NewListener`. -/
theorem reachable_inv (env : Env) (fuel : Nat) (addr : String)
    (config : Option transport.Config) (w0 w : World) (l : Listener) (sched : List Actor)
    (s : System)
    (hnew : (NewListener env addr config).run w0 = (Outcome.ret (some l, none), w))
    (hrun : System.exec env fuel sched (System.start l w) = some s) : s.Inv :=
  exec_inv env fuel sched _ s (start_inv env addr config w0 w l hnew) hrun

/-- With the wait group at zero, neither accept loop is running. -/
theorem inv_loops_stopped (s : System) (hs : s.Inv) (hw : s.l.wg = 0) :
    s.serveQuic.running = false ∧ s.serveTCP.running = false := by
  have h1 := hs.wg_count
  rw [hw] at h1
  cases hq : s.serveQuic.running <;> cases ht : s.serveTCP.running <;> simp [hq, ht] at h1 ⊢

/-- Closing a buffer leaves what is on the session buffers. -/
theorem closeBuffer_buf (l l' : Listener) (k : Nat) (h : l.closeBuffer k = some l') :
    l'.quicSession.buf = l.quicSession.buf ∧ l'.tcpSession.buf = l.tcpSession.buf := by
  match k, h with
  | 0, h =>
    simp only [Listener.closeBuffer, Option.map_eq_some'] at h
    obtain ⟨c, hc, rfl⟩ := h
    exact ⟨(close_some _ _ hc).2.1, rfl⟩
  | 1, h =>
    simp only [Listener.closeBuffer, Option.map_eq_some'] at h
    obtain ⟨c, hc, rfl⟩ := h
    exact ⟨rfl, rfl⟩
  | 2, h =>
    simp only [Listener.closeBuffer, Option.map_eq_some'] at h
    obtain ⟨c, hc, rfl⟩ := h
    exact ⟨rfl, (close_some _ _ hc).2.1⟩
  | n + 3, h =>
    simp only [Listener.closeBuffer, Option.map_eq_some'] at h
    obtain ⟨c, hc, rfl⟩ := h
    exact ⟨rfl, rfl⟩

/-- A step leaves an accept loop that has returned as it is, and adds nothing to its
session buffer. -/
theorem step_done_stable (env : Env) (fuel : Nat) (a : Actor) (s s' : System)
    (h : s.step env fuel a = some s') :
    (s.serveQuic = LoopPc.done →
      s'.serveQuic = LoopPc.done ∧ s'.l.quicSession.buf <:+ s.l.quicSession.buf) ∧
    (s.serveTCP = LoopPc.done →
      s'.serveTCP = LoopPc.done ∧ s'.l.tcpSession.buf <:+ s.l.tcpSession.buf) := by
  unfold System.step at h
  split_ifs at h with hc
  cases a with
  | serveQuic =>
    simp only [System.move, Listener.serveQuicStep] at h
    cases hpc : s.serveQuic with
    | idle => simp [hpc] at h
    | done => simp [hpc] at h
    | top =>
      simp only [hpc] at h
      split_ifs at h with hcl
      · simp at h
        subst h
        simp
      · simp at h
        subst h
        simp
    | inAccept =>
      simp only [hpc] at h
      generalize hra : s.l.quicAccept.run s.w = ra at h
      rcases ra with ⟨o, w2⟩
      rcases o with ⟨r2, l2⟩ | _ | _
      · have hd := quicAccept_drained _ _ _ _ _ hra
        simp only [] at h
        split_ifs at h
        · simp at h
          subst h
          simp
          intro h; exact ⟨h, hd.tcpSession_buf⟩
        · simp at h
          subst h
          simp
          intro h; exact ⟨h, hd.tcpSession_buf⟩
      · simp at h
        subst h
        simp
      · simp at h
    | sendSession v =>
      simp only [hpc] at h
      cases hsend : s.l.quicSession.send v with
      | sent c =>
        simp [hsend] at h
        subst h
        simp
      | full => simp [hsend] at h
      | closed =>
        simp [hsend] at h
        subst h
        simp
    | sendErr e =>
      simp only [hpc] at h
      cases hsend : s.l.quicErr.send e with
      | sent c =>
        simp [hsend] at h
        subst h
        simp
      | full => simp [hsend] at h
      | closed =>
        simp [hsend] at h
        subst h
        simp
  | serveTCP =>
    simp only [System.move, Listener.serveTCPStep] at h
    cases hpc : s.serveTCP with
    | idle => simp [hpc] at h
    | done => simp [hpc] at h
    | top =>
      simp only [hpc] at h
      split_ifs at h with hcl
      · simp at h
        subst h
        simp
      · simp at h
        subst h
        simp
    | inAccept =>
      simp only [hpc] at h
      generalize hra : (s.l.tcpAccept env).run s.w = ra at h
      rcases ra with ⟨o, w2⟩
      rcases o with ⟨r2, l2⟩ | _ | _
      · have hd := tcpAccept_same env _ _ _ _ _ hra
        subst hd
        simp only [] at h
        split_ifs at h
        · simp at h
          subst h
          simp
        · simp at h
          subst h
          simp
      · simp at h
        subst h
        simp
      · simp at h
    | sendSession v =>
      simp only [hpc] at h
      cases hsend : s.l.tcpSession.send v with
      | sent c =>
        simp [hsend] at h
        subst h
        simp
      | full => simp [hsend] at h
      | closed =>
        simp [hsend] at h
        subst h
        simp
    | sendErr e =>
      simp only [hpc] at h
      cases hsend : s.l.tcpErr.send e with
      | sent c =>
        simp [hsend] at h
        subst h
        simp
      | full => simp [hsend] at h
      | closed =>
        simp [hsend] at h
        subst h
        simp
  | acceptLoop =>
    simp only [System.move] at h
    cases hq : s.l.quicListener with
    | none => simp [hq] at h
    | some q =>
      simp only [hq] at h
      cases hst : q.acceptLoopStep env s.acceptLoop s.w with
      | blocked => simp [hst] at h
      | next x =>
        obtain ⟨pc, q', w'⟩ := x
        simp [hst] at h
        subst h
        simp
      | panic msg =>
        simp [hst] at h
        subst h
        simp
  | close =>
    simp only [System.move] at h
    cases hpc : s.closePc with
    | idle =>
      simp [hpc] at h
      subst h
      simp
    | closeAll =>
      simp only [hpc] at h
      generalize hra : (s.l.closeListeners env).run s.w = ra at h
      rcases ra with ⟨o, w2⟩
      rcases o with _ | _ | _
      · simp at h
        subst h
        simp
      · simp at h
        subst h
        simp
      · simp at h
    | wait err =>
      simp only [hpc] at h
      split_ifs at h
      simp at h
      subst h
      simp
    | closeChan k err =>
      simp only [hpc] at h
      cases hcb : s.l.closeBuffer k with
      | none =>
        simp [hcb] at h
        subst h
        simp
      | some l' =>
        obtain ⟨hb1, hb2⟩ := closeBuffer_buf _ _ _ hcb
        simp only [hcb] at h
        split_ifs at h
        · simp at h
          subst h
          simp [hb1, hb2]
        · simp at h
          subst h
          simp [hb1, hb2]
  | accept =>
    simp only [System.move] at h
    generalize hra : (s.l.Accept env fuel).run s.w = ra at h
    rcases ra with ⟨o, w2⟩
    rcases o with (_ | ⟨r2, l2⟩) | _ | _
    · simp at h
    · have hd := accept_drained _ _ _ _ _ _ _ hra
      simp at h
      subst h
      simp
      exact ⟨fun h => ⟨h, hd.quicSession_buf⟩, fun h => ⟨h, hd.tcpSession_buf⟩⟩
    · simp at h
      subst h
      simp
    · simp at h

/-- On a dual listener whose four buffers are empty and open, `Accept` blocks. -/
theorem acceptDual_blocks_when_empty (env : Env) (fuel : Nat) (l : Listener) (w : World)
    (hq : l.quicListener ≠ none) (ht : l.tcpListener ≠ none)
    (h1 : l.quicSession = Chan.make l.quicSession.cap)
    (h2 : l.tcpSession = Chan.make l.tcpSession.cap)
    (h3 : l.quicErr = Chan.make l.quicErr.cap)
    (h4 : l.tcpErr = Chan.make l.tcpErr.cap) :
    (l.Accept env (fuel + 1)).run w = (Outcome.block, w) := by
  have hr : l.readyCases = [] := by
    unfold Listener.readyCases
    rw [h1, h2, h3, h4]
    simp [Chan.make, Chan.recvReady]
  simp [Listener.Accept, hq, ht, Listener.acceptDualMode, hr, pickCase, run_bind, blocked]

/-- Claim C12. In every run of a listener returned by `NewListener` with its goroutines
and any calls of `Close` and `Accept`: whenever one of the four buffers is closed, neither
accept loop is running; an accept loop that is about to send a session or an error finds
its buffer open; and once a call of `Close` has returned, the four buffers are closed and
neither accept loop is running. -/
theorem close_waits_for_accept_loops (env : Env) (fuel : Nat) (addr : String)
    (config : Option transport.Config) (w0 w : World) (l : Listener) (sched : List Actor)
    (s : System)
    (hnew : (NewListener env addr config).run w0 = (Outcome.ret (some l, none), w))
    (hrun : System.exec env fuel sched (System.start l w) = some s) :
    ((s.l.quicSession.closed = true ∨ s.l.quicErr.closed = true ∨
        s.l.tcpSession.closed = true ∨ s.l.tcpErr.closed = true) →
      s.serveQuic.running = false ∧ s.serveTCP.running = false) ∧
    (∀ v, s.serveQuic = LoopPc.sendSession v → s.l.quicSession.closed = false) ∧
    (∀ e, s.serveQuic = LoopPc.sendErr e → s.l.quicErr.closed = false) ∧
    (∀ v, s.serveTCP = LoopPc.sendSession v → s.l.tcpSession.closed = false) ∧
    (∀ e, s.serveTCP = LoopPc.sendErr e → s.l.tcpErr.closed = false) ∧
    (s.closeResults ≠ [] →
      s.l.quicSession.closed = true ∧ s.l.quicErr.closed = true ∧
      s.l.tcpSession.closed = true ∧ s.l.tcpErr.closed = true ∧
      s.serveQuic.running = false ∧ s.serveTCP.running = false) := by
  have hs := reachable_inv env fuel addr config w0 w l sched s hnew hrun
  have hstop := fun h => inv_loops_stopped s hs (hs.closed_after h)
  refine ⟨hstop, ?_, ?_, ?_, ?_, ?_⟩
  · intro v hv
    cases hc : s.l.quicSession.closed with
    | false => rfl
    | true =>
      have := (hstop (Or.inl hc)).1
      simp [hv, LoopPc.running] at this
  · intro v hv
    cases hc : s.l.quicErr.closed with
    | false => rfl
    | true =>
      have := (hstop (Or.inr (Or.inl hc))).1
      simp [hv, LoopPc.running] at this
  · intro v hv
    cases hc : s.l.tcpSession.closed with
    | false => rfl
    | true =>
      have := (hstop (Or.inr (Or.inr (Or.inl hc)))).2
      simp [hv, LoopPc.running] at this
  · intro v hv
    cases hc : s.l.tcpErr.closed with
    | false => rfl
    | true =>
      have := (hstop (Or.inr (Or.inr (Or.inr hc)))).2
      simp [hv, LoopPc.running] at this
  · intro hr
    obtain ⟨a, b, c, d, e⟩ := hs.returned_closed hr
    exact ⟨a, b, c, d, (inv_loops_stopped s hs e).1, (inv_loops_stopped s hs e).2⟩

/-- The run `closeSchedule` of the sample dual listener, in which `Close` returns: the four
buffers are closed and both accept loops have returned. -/
theorem close_waits_for_accept_loops_witness :
    (NewListener quietEnv ":9090" none).run World.init =
      (Outcome.ret (some sampleDualListener, none), dualBoundWorld) ∧
    System.exec quietEnv 1 closeSchedule (System.start sampleDualListener dualBoundWorld) =
      some closedDualSystem ∧
    closedDualSystem.closeResults ≠ [] ∧
    closedDualSystem.l.quicSession.closed = true ∧ closedDualSystem.l.quicErr.closed = true ∧
    closedDualSystem.l.tcpSession.closed = true ∧ closedDualSystem.l.tcpErr.closed = true ∧
    closedDualSystem.serveQuic.running = false ∧ closedDualSystem.serveTCP.running = false :=
  ⟨by decide, by decide, by decide,
    (close_waits_for_accept_loops quietEnv 1 ":9090" none World.init dualBoundWorld
      sampleDualListener closeSchedule closedDualSystem (by decide) (by decide)).2.2.2.2.2
      (by decide)⟩

/-- An accept loop that has returned stays so along a run, and its session buffer only
loses sessions. -/
theorem exec_done_stable (env : Env) (fuel : Nat) :
    ∀ (sched : List Actor) (s s' : System), System.exec env fuel sched s = some s' →
      (s.serveQuic = LoopPc.done →
        s'.serveQuic = LoopPc.done ∧ s'.l.quicSession.buf <:+ s.l.quicSession.buf) ∧
      (s.serveTCP = LoopPc.done →
        s'.serveTCP = LoopPc.done ∧ s'.l.tcpSession.buf <:+ s.l.tcpSession.buf) := by
  intro sched
  induction sched with
  | nil =>
    intro s s' h
    simp only [System.exec, Option.some.injEq] at h
    subst h
    exact ⟨fun h => ⟨h, List.suffix_refl _⟩, fun h => ⟨h, List.suffix_refl _⟩⟩
  | cons a rest ih =>
    intro s s' h
    simp only [System.exec] at h
    cases hst : s.step env fuel a with
    | none => simp [hst] at h
    | some s1 =>
      simp only [hst] at h
      obtain ⟨a1, a2⟩ := step_done_stable env fuel a s s1 hst
      obtain ⟨b1, b2⟩ := ih s1 s' h
      exact ⟨fun hd => ⟨(b1 (a1 hd).1).1, (b1 (a1 hd).1).2.trans (a1 hd).2⟩,
        fun hd => ⟨(b2 (a2 hd).1).1, (b2 (a2 hd).1).2.trans (a2 hd).2⟩⟩

/-- In every run of a listener returned by `NewListener`: an error lies on the error
buffer of a transport only when the accept loop of that transport has returned; an accept
loop that has returned stays so in every later state, and nothing is added to its session
buffer; and a call of `Accept` on a dual listener whose four buffers are empty and open
blocks. -/
theorem error_ends_accept_loop (env : Env) (fuel : Nat) (addr : String)
    (config : Option transport.Config) (w0 w : World) (l : Listener) (sched : List Actor)
    (s : System)
    (hnew : (NewListener env addr config).run w0 = (Outcome.ret (some l, none), w))
    (hrun : System.exec env fuel sched (System.start l w) = some s) :
    (s.l.quicErr.buf ≠ [] → s.serveQuic = LoopPc.done) ∧
    (s.l.tcpErr.buf ≠ [] → s.serveTCP = LoopPc.done) ∧
    (∀ later s', System.exec env fuel later s = some s' →
      (s.serveQuic = LoopPc.done →
        s'.serveQuic = LoopPc.done ∧ s'.l.quicSession.buf <:+ s.l.quicSession.buf) ∧
      (s.serveTCP = LoopPc.done →
        s'.serveTCP = LoopPc.done ∧ s'.l.tcpSession.buf <:+ s.l.tcpSession.buf)) ∧
    (s.l.quicListener ≠ none → s.l.tcpListener ≠ none →
      s.l.quicSession = Chan.make s.l.quicSession.cap →
      s.l.tcpSession = Chan.make s.l.tcpSession.cap →
      s.l.quicErr = Chan.make s.l.quicErr.cap →
      s.l.tcpErr = Chan.make s.l.tcpErr.cap →
      ∀ n w1, (s.l.Accept env (n + 1)).run w1 = (Outcome.block, w1)) := by
  have hs := reachable_inv env fuel addr config w0 w l sched s hnew hrun
  refine ⟨hs.quicErr_done, hs.tcpErr_done, ?_, ?_⟩
  · intro later s' h
    exact exec_done_stable env fuel later s s' h
  · intro hq ht h1 h2 h3 h4 n w1
    exact acceptDual_blocks_when_empty env n s.l w1 hq ht h1 h2 h3 h4

/-- Claim C11 fails on the sample dual listener. In `flakyTcpEnv` the accept loop `serveTCP`
reports the failed handshake of its first peer and returns; a first `Accept` takes that
error from the T-error buffer and returns the session of the QUIC peer. Afterwards the TCP
listener would hand over the session of the next peer, the QUIC side produces no session
and no error, none of the three loops can move, and `Accept` blocks. -/
theorem fallback_disables_transport :
    (NewListener flakyTcpEnv ":9090" none).run World.init =
      (Outcome.ret (some sampleDualListener, none), dualBoundWorld) ∧
    System.exec flakyTcpEnv 3 fallbackSchedule (System.start sampleDualListener dualBoundWorld) =
      some fallbackSystem ∧
    (System.exec flakyTcpEnv 3 (fallbackSchedule.take 3)
        (System.start sampleDualListener dualBoundWorld)).map (fun s => s.l.tcpErr.buf) =
      some [some "remote error: tls: bad certificate"] ∧
    fallbackSystem.accepted = [(some sampleQuicSession, none)] ∧
    ((fallbackSystem.l.tcpAccept flakyTcpEnv).run fallbackSystem.w).1 =
      Outcome.ret ((some (busyTcpSession 108), none), fallbackSystem.l) ∧
    fallbackSystem.step flakyTcpEnv 3 Actor.serveQuic = none ∧
    fallbackSystem.step flakyTcpEnv 3 Actor.serveTCP = none ∧
    fallbackSystem.step flakyTcpEnv 3 Actor.acceptLoop = none ∧
    fallbackSystem.step flakyTcpEnv 3 Actor.accept = none ∧
    ((fallbackSystem.l.Accept flakyTcpEnv 3).run fallbackSystem.w).1 = Outcome.block := by
  decide

/-- Claim C13 fails on the sample dual listener. After the run `closeSchedule`, in which
`Close` returns `nil` and the three loops return, a call of `Accept` whose `select` takes
the closed T-session buffer, or the error left on the T-error buffer, falls back to the
QUIC listener and blocks: the channels of the QUIC adapter are empty and open, and no
loop can move. A `select` that takes the Q-session buffer returns the TCP error. -/
theorem accept_after_close_hangs :
    (NewListener quietEnv ":9090" none).run World.init =
      (Outcome.ret (some sampleDualListener, none), dualBoundWorld) ∧
    System.exec quietEnv 1 closeSchedule (System.start sampleDualListener dualBoundWorld) =
      some closedDualSystem ∧
    closedDualSystem.closeResults = [none] ∧
    closedDualSystem.step quietEnv 1 Actor.serveQuic = none ∧
    closedDualSystem.step quietEnv 1 Actor.serveTCP = none ∧
    closedDualSystem.step quietEnv 1 Actor.acceptLoop = none ∧
    (∀ fuel, ((closedDualListener.Accept quietEnv (fuel + 1)).run
      { closedDualSystem.w with picks := [1] }).1 = Outcome.block) ∧
    (∀ fuel, ((closedDualListener.Accept quietEnv (fuel + 1)).run
      { closedDualSystem.w with picks := [3] }).1 = Outcome.block) ∧
    ((closedDualListener.Accept quietEnv 1).run closedDualSystem.w).1 =
      Outcome.ret (some ((none, some "accept tcp: use of closed network connection"),
        closedDualListener)) := by
  refine ⟨by decide, by decide, by decide, by decide, by decide, by decide, ?_, ?_, by decide⟩
  · intro fuel
    rfl
  · intro fuel
    rfl

/-- Claim C14 fails on the sample dual listener. After the run `closeSchedule`, in which
`Close` returns `nil`, a second `Close` closes the two listeners again and panics with
"close of closed channel" at `close(l.quicSession)`. -/
theorem second_close_panics :
    (NewListener quietEnv ":9090" none).run World.init =
      (Outcome.ret (some sampleDualListener, none), dualBoundWorld) ∧
    System.exec quietEnv 1 closeSchedule (System.start sampleDualListener dualBoundWorld) =
      some closedDualSystem ∧
    closedDualSystem.closeResults = [none] ∧
    ((closedDualListener.Close quietEnv).run closedDualSystem.w).1 =
      Outcome.panic "close of closed channel" ∧
    (System.exec quietEnv 1 [Actor.close, Actor.close, Actor.close, Actor.close]
        closedDualSystem).map (fun s => s.crashed) =
      some (some "close of closed channel") := by
  decide

/-- With no QUIC listener, `Accept` returns with the listener as it was: it reads none of
the four buffers. -/
theorem accept_single_tcp_same (env : Env) (fuel : Nat) (l l' : Listener) (w w' : World)
    (r : SessionResult) (hq : l.quicListener = none)
    (h : (l.Accept env fuel).run w = (Outcome.ret (some (r, l')), w')) : l' = l := by
  revert h
  simp only [Listener.Accept, hq, ne_eq, not_true_eq_false, false_and, if_false, run_bind]
  generalize hra : (l.tcpAccept env).run w = ra
  rcases ra with ⟨o, w2⟩
  rcases o with ⟨r2, l2⟩ | _ | _
  · have := tcpAccept_same env _ _ _ _ _ hra
    subst this
    simp [run_pure]
    intro _ h _
    exact h.symm
  · simp
  · simp

/-- Claim C19 fails on the sample TCP-only listener. In `busyTcpEnv` the accept loop
`serveTCP`, which `NewListener` has started, accepts the first peer and puts its session
on the T-session buffer; the calls of `Accept` return the sessions of the next peers, and
no call of `Accept` on a listener without QUIC reads a buffer, so that of the first peer
stays on the buffer. -/
theorem single_transport_strands_sessions :
    (NewListener busyTcpEnv ":9090" (some (transport.Config.mk ModeTCP none))).run World.init =
      (Outcome.ret (some tcpOnlyListener, none), tcpBoundWorld) ∧
    (System.exec busyTcpEnv 1 strandSchedule (System.start tcpOnlyListener tcpBoundWorld)).map
        (fun s => (s.l.tcpSession.buf, s.accepted)) =
      some ([some (busyTcpSession 102)],
        [(some (busyTcpSession 105), none), (some (busyTcpSession 108), none)]) ∧
    (∀ (env : Env) (fuel : Nat) (l l' : Listener) (w w' : World) (r : SessionResult),
      l.quicListener = none →
      (l.Accept env fuel).run w = (Outcome.ret (some (r, l')), w') → l' = l) :=
  ⟨by decide, by decide, accept_single_tcp_same⟩

end Runs

end Qymux
